import Mathlib

/-!
Shallow embedding of the lumi-lang toolchain core (assembler, container
format, bytecode interpreter) from the repository sources, together with
theorems settling the frozen claims about its specification.

Conventions of the embedding:
- Machine integers are modelled as Int or Nat with explicit reduction
  modulo 2 ^ 32 (i32 or u32) or 2 ^ 64 (usize); signed values are kept in
  the two's-complement range.
- Integer overflow wraps, following the release-profile semantics that the
  design notes of the program fix (overflow in ADD, SUB, MUL is wrapping).
- Operations that can panic in Rust (out-of-bounds indexing or slicing,
  unwrap on None or on an empty pop, division by zero) are modelled by
  Option, with none meaning the panic.
- Rust f64 values are modelled by Float (both are IEEE-754 binary64).
-/

set_option linter.unusedVariables false

namespace LumiSpec

/-- Reduce an integer into the two's-complement i32 range. -/
def wrap32 (x : Int) : Int := (x + 2 ^ 31) % 2 ^ 32 - 2 ^ 31

/-- The u32 bit pattern of an i32 value. -/
def toU32 (x : Int) : Nat := (x % 2 ^ 32).toNat

/-- Rust cast of an i32 value to usize: sign-extension to 64 bits. -/
def toUsize (x : Int) : Nat := (x % 2 ^ 64).toNat

/-- Reinterpret a u32 bit pattern as a signed i32 value. -/
def ofU32 (n : Nat) : Int := if n < 2 ^ 31 then (n : Int) else (n : Int) - 2 ^ 32

/-- The four little-endian bytes of a u32 value. -/
def u32Bytes (n : Nat) : List Nat := [n % 256, n / 256 % 256, n / 65536 % 256, n / 16777216 % 256]

/-- The four little-endian bytes of an i32 value, as written by write_i32 LittleEndian. -/
def i32LEBytes (x : Int) : List Nat := u32Bytes (toU32 x)

/-- The two little-endian bytes of a value truncated to i16, as written by write_i16. -/
def i16LEBytes (x : Int) : List Nat :=
  [(x % 2 ^ 16).toNat % 256, (x % 2 ^ 16).toNat / 256]

/-- Combine four bytes little-endian into a u32 value. -/
def readU32LE (b0 b1 b2 b3 : Nat) : Nat := b0 + 256 * b1 + 65536 * b2 + 16777216 * b3

/-- Combine four bytes little-endian into an i32 value. -/
def readI32LE (b0 b1 b2 b3 : Nat) : Int := ofU32 (readU32LE b0 b1 b2 b3)

/-- Wrapping usize addition (release-profile semantics). -/
def usizeAdd (a b : Nat) : Nat := (a + b) % 2 ^ 64

/-- Wrapping usize subtraction (release-profile semantics). -/
def usizeSub (a b : Nat) : Nat := (((a : Int) - (b : Int)) % 2 ^ 64).toNat

/-- Rust Vec resize: truncate or extend with the fill value. -/
def listResize (l : List Nat) (n : Nat) (v : Nat) : List Nat :=
  if n ≤ l.length then l.take n else l ++ List.replicate (n - l.length) v

/-- VMEventType from src/src/vm/mod.rs.  Timestamps and per-VM UUIDs are
dropped: no claim mentions them and they are not statable.  Note the source
has no Crash(code) execution status and only these three event kinds. -/
inductive VMEventType where
  | Start : VMEventType
  | GracefulStop (code : Nat) : VMEventType
  | Crash (code : Nat) : VMEventType
deriving DecidableEq, Repr

/-- ExecutionStatus from src/src/vm/mod.rs: Continue, BreakpointHit,
Done(u32).  There is no Crash variant in the source. -/
inductive ExecutionStatus where
  | Continue : ExecutionStatus
  | BreakpointHit : ExecutionStatus
  | Done (code : Nat) : ExecutionStatus
deriving DecidableEq, Repr

/-- WatchType from src/src/vm/system.rs. -/
inductive WatchType where
  | Memory (addr : Nat) : WatchType
  | Register (index : Nat) : WatchType
deriving DecidableEq, Repr

/-- WatchVariable from src/src/vm/system.rs. -/
structure WatchVariable where
  watchType : WatchType
  lastValue : Int
deriving Repr

/-- The VM state of src/src/vm/mod.rs.  The events vector is not a field
here: no instruction handler touches it, only run() appends to it, so the
embedding of run threads the event list separately.  The id and
logical_cores fields are dropped (never read by the core semantics). -/
structure VMState where
  registers : List Int
  floatRegisters : List Float
  pc : Nat
  program : List Nat
  heap : List Nat
  stack : List Int
  remainder : Nat
  equalFlag : Bool
  roData : List Nat
  loopCounter : Nat
  sp : Nat
  bp : Nat
  watchVariables : List WatchVariable

/-- VM::new from src/src/vm/mod.rs (fields relevant to the semantics). -/
def vmNew : VMState where
  registers := List.replicate 32 0
  floatRegisters := List.replicate 32 0.0
  pc := 0
  program := []
  heap := []
  stack := []
  remainder := 0
  equalFlag := false
  roData := []
  loopCounter := 0
  sp := 0
  bp := 0
  watchVariables := []

/-- A fresh VM whose program buffer holds the given container bytes, as
built by VM::new followed by add_bytes. -/
def vmLoad (prog : List Nat) : VMState := { vmNew with program := prog }

/-- next_8_bits from src/src/vm/mod.rs: read the byte at pc and advance;
out-of-bounds indexing panics. -/
def next8 (s : VMState) : Option (Nat × VMState) :=
  match s.program.get? s.pc with
  | some b => some (b, { s with pc := s.pc + 1 })
  | none => none

/-- next_16_bits from src/src/vm/mod.rs: little-endian 16-bit read. -/
def next16 (s : VMState) : Option (Nat × VMState) :=
  match s.program.get? s.pc, s.program.get? (s.pc + 1) with
  | some b0, some b1 => some (b0 + 256 * b1, { s with pc := s.pc + 2 })
  | _, _ => none

/-- next_24_bits from src/src/vm/mod.rs: little-endian 24-bit read. -/
def next24 (s : VMState) : Option (Nat × VMState) :=
  match s.program.get? s.pc, s.program.get? (s.pc + 1), s.program.get? (s.pc + 2) with
  | some b0, some b1, some b2 =>
      some (b0 + 256 * b1 + 65536 * b2, { s with pc := s.pc + 3 })
  | _, _, _ => none

/-- Read of registers[i]; an index past the array panics. -/
def regGet (s : VMState) (i : Nat) : Option Int := s.registers.get? i

/-- Write of registers[i]; an index past the array panics. -/
def regSet (s : VMState) (i : Nat) (v : Int) : Option VMState :=
  if i < s.registers.length then some { s with registers := s.registers.set i v } else none

/-- Read of float_registers[i]. -/
def fregGet (s : VMState) (i : Nat) : Option Float := s.floatRegisters.get? i

/-- Write of float_registers[i]. -/
def fregSet (s : VMState) (i : Nat) (v : Float) : Option VMState :=
  if i < s.floatRegisters.length then
    some { s with floatRegisters := s.floatRegisters.set i v }
  else none

/-! Handlers from src/src/vm/memory.rs. -/

/-- memory_execute_load (LOAD): read a register index byte and a 16-bit
little-endian immediate, zero-extend it into the i32 register. -/
def memory_execute_load (s : VMState) : Option VMState := do
  let (r, s1) ← next8 s
  let (n, s2) ← next16 s1
  regSet s2 r (Int.ofNat n)

/-- memory_execute_load_f64 (LOADF64): load a 16-bit unsigned value as f64. -/
def memory_execute_load_f64 (s : VMState) : Option VMState := do
  let (r, s1) ← next8 s
  let (n, s2) ← next16 s1
  fregSet s2 r (Float.ofNat n)

/-- memory_execute_allocate (ALOC): new_end = heap.len() as i32 + registers[r]
with wrapping i32 arithmetic, then heap.resize(new_end as usize, 0). -/
def memory_execute_allocate (s : VMState) : Option VMState := do
  let (r, s1) ← next8 s
  let bytes ← regGet s1 r
  let newEnd := wrap32 (ofU32 (s1.heap.length % 2 ^ 32) + bytes)
  some { s1 with heap := listResize s1.heap (toUsize newEnd) 0 }

/-- memory_execute_load_upper_immediate (LUI).  checked_shl(8) never fails
since 8 < 32; the shift truncates to i32. -/
def memory_execute_load_upper_immediate (s : VMState) : Option VMState := do
  let (r, s1) ← next8 s
  let v ← regGet s1 r
  let (u1, s2) ← next8 s1
  let (u2, s3) ← next8 s2
  let v1 := ofU32 (Nat.lor (toU32 (wrap32 (v * 256))) u1)
  let v2 := ofU32 (Nat.lor (toU32 (wrap32 (v1 * 256))) u2)
  regSet s3 r v2

/-- memory_execute_load_memory (LOADM): offset = registers[op1] as usize;
the slice heap[offset..offset + 4] panics when it runs past the heap, else
its 4 bytes are read little-endian into registers[op2]; a third operand
byte is then consumed. -/
def memory_execute_load_memory (s : VMState) : Option VMState := do
  let (r1, s1) ← next8 s
  let v ← regGet s1 r1
  let off := toUsize v
  if off + 4 ≤ s1.heap.length then
    let data := readI32LE (s1.heap.getD off 0) (s1.heap.getD (off + 1) 0)
      (s1.heap.getD (off + 2) 0) (s1.heap.getD (off + 3) 0)
    let (r2, s2) ← next8 s1
    let s3 ← regSet s2 r2 data
    let (_, s4) ← next8 s3
    some s4
  else none

/-- memory_execute_set_memory (SETM): the offset register is read and
discarded; the 4 little-endian bytes of registers[op2] are pushed onto the
end of the heap.  No third operand byte is consumed and no bounds check or
in-place write happens. -/
def memory_execute_set_memory (s : VMState) : Option VMState := do
  let (r1, s1) ← next8 s
  let _off ← regGet s1 r1
  let (r2, s2) ← next8 s1
  let data ← regGet s2 r2
  some { s2 with heap := s2.heap ++ i32LEBytes data }

/-- memory_execute_push_to_stack (PUSH). -/
def memory_execute_push_to_stack (s : VMState) : Option VMState := do
  let (r, s1) ← next8 s
  let v ← regGet s1 r
  some { s1 with stack := v :: s1.stack, sp := s1.sp + 1 }

/-- memory_execute_pop_from_stack (POP): unwrap of pop panics on an empty
stack; sp decrements with wrapping usize arithmetic. -/
def memory_execute_pop_from_stack (s : VMState) : Option VMState := do
  let (r, s1) ← next8 s
  match s1.stack with
  | v :: rest => regSet { s1 with stack := rest, sp := usizeSub s1.sp 1 } r v
  | [] => none

/-! Handlers from src/src/vm/arithmetic.rs.  The four integer operations
share the read-read-write shape; the binary operation is a parameter. -/

/-- Common shape of arithmetic_execute_add, sub and mul: read two source
registers and write the combined value into the target register. -/
def arithmetic_step (op : Int → Int → Int) (s : VMState) : Option VMState := do
  let (r1, s1) ← next8 s
  let v1 ← regGet s1 r1
  let (r2, s2) ← next8 s1
  let v2 ← regGet s2 r2
  let (r3, s3) ← next8 s2
  regSet s3 r3 (op v1 v2)

/-- arithmetic_execute_add (ADD), wrapping. -/
def arithmetic_execute_add (s : VMState) : Option VMState :=
  arithmetic_step (fun a b => wrap32 (a + b)) s

/-- arithmetic_execute_sub (SUB), wrapping. -/
def arithmetic_execute_sub (s : VMState) : Option VMState :=
  arithmetic_step (fun a b => wrap32 (a - b)) s

/-- arithmetic_execute_mul (MUL), wrapping. -/
def arithmetic_execute_mul (s : VMState) : Option VMState :=
  arithmetic_step (fun a b => wrap32 (a * b)) s

/-- arithmetic_execute_div (DIV): Rust i32 division truncates toward zero
and panics on a zero divisor; the remainder register receives
(register_1 % register_2) as u32. -/
def arithmetic_execute_div (s : VMState) : Option VMState := do
  let (r1, s1) ← next8 s
  let v1 ← regGet s1 r1
  let (r2, s2) ← next8 s1
  let v2 ← regGet s2 r2
  if v2 = 0 then none
  else
    let (r3, s3) ← next8 s2
    let s4 ← regSet s3 r3 (Int.tdiv v1 v2)
    some { s4 with remainder := toU32 (Int.tmod v1 v2) }

/-- arithmetic_execute_increment (INC): wrapping increment, then a 16-bit
padding read. -/
def arithmetic_execute_increment (s : VMState) : Option VMState := do
  let (r, s1) ← next8 s
  let v ← regGet s1 r
  let s2 ← regSet s1 r (wrap32 (v + 1))
  let (_, s3) ← next16 s2
  some s3

/-- arithmetic_execute_decrement (DEC): wrapping decrement, then a 16-bit
padding read. -/
def arithmetic_execute_decrement (s : VMState) : Option VMState := do
  let (r, s1) ← next8 s
  let v ← regGet s1 r
  let s2 ← regSet s1 r (wrap32 (v - 1))
  let (_, s3) ← next16 s2
  some s3

/-- Common shape of the f64 arithmetic handlers ADDF64, SUBF64, MULF64. -/
def arithmetic_step_f64 (op : Float → Float → Float) (s : VMState) : Option VMState := do
  let (r1, s1) ← next8 s
  let v1 ← fregGet s1 r1
  let (r2, s2) ← next8 s1
  let v2 ← fregGet s2 r2
  let (r3, s3) ← next8 s2
  fregSet s3 r3 (op v1 v2)

/-- arithmetic_execute_add_f64 (ADDF64). -/
def arithmetic_execute_add_f64 (s : VMState) : Option VMState :=
  arithmetic_step_f64 (fun a b => a + b) s

/-- arithmetic_execute_sub_f64 (SUBF64). -/
def arithmetic_execute_sub_f64 (s : VMState) : Option VMState :=
  arithmetic_step_f64 (fun a b => a - b) s

/-- arithmetic_execute_mul_f64 (MULF64). -/
def arithmetic_execute_mul_f64 (s : VMState) : Option VMState :=
  arithmetic_step_f64 (fun a b => a * b) s

/-- Truncation of a float toward zero. -/
def floatTrunc (x : Float) : Float := if x ≥ 0 then x.floor else x.ceil

/-- Rust f64 remainder a % b followed by the saturating cast as u32.  Core
Lean exposes no IEEE fmod primitive, so the remainder is computed through
division truncated toward zero; this matches fmod whenever the quotient is
exactly representable.  No claim depends on this value. -/
def floatRemAsU32 (a b : Float) : Nat := (a - b * floatTrunc (a / b)).toUInt32.toNat

/-- arithmetic_execute_div_f64 (DIVF64): IEEE division (never panics), and
the remainder register receives the f64 remainder cast to u32. -/
def arithmetic_execute_div_f64 (s : VMState) : Option VMState := do
  let (r1, s1) ← next8 s
  let v1 ← fregGet s1 r1
  let (r2, s2) ← next8 s1
  let v2 ← fregGet s2 r2
  let (r3, s3) ← next8 s2
  let s4 ← fregSet s3 r3 (v1 / v2)
  some { s4 with remainder := floatRemAsU32 v1 v2 }

/-! Handlers from src/src/vm/comparison.rs (integer part) and from the
archived copy of the same crate, src/lumi_vm_v1_archive/src/vm/comparison.rs
(f64 part; vm/mod.rs under src/src dispatches to these functions but this
snapshot keeps their bodies only in the archive directory).  All six
integer comparisons share one shape: read two registers, set equal_flag
from the comparison, then consume one padding byte. -/

/-- Common shape of the six integer comparison handlers. -/
def comparison_step (test : Int → Int → Bool) (s : VMState) : Option VMState := do
  let (r1, s1) ← next8 s
  let v1 ← regGet s1 r1
  let (r2, s2) ← next8 s1
  let v2 ← regGet s2 r2
  let (_, s3) ← next8 s2
  some { s3 with equalFlag := test v1 v2 }

/-- comparison_execute_equal (EQ). -/
def comparison_execute_equal (s : VMState) : Option VMState :=
  comparison_step (fun a b => a == b) s

/-- comparison_execute_not_equal (NEQ). -/
def comparison_execute_not_equal (s : VMState) : Option VMState :=
  comparison_step (fun a b => a != b) s

/-- comparison_execute_greater_than (GT). -/
def comparison_execute_greater_than (s : VMState) : Option VMState :=
  comparison_step (fun a b => decide (a > b)) s

/-- comparison_execute_less_than (LT). -/
def comparison_execute_less_than (s : VMState) : Option VMState :=
  comparison_step (fun a b => decide (a < b)) s

/-- comparison_execute_greater_than_or_equal (GTE). -/
def comparison_execute_greater_than_or_equal (s : VMState) : Option VMState :=
  comparison_step (fun a b => decide (a ≥ b)) s

/-- comparison_execute_less_than_or_equal (LTE). -/
def comparison_execute_less_than_or_equal (s : VMState) : Option VMState :=
  comparison_step (fun a b => decide (a ≤ b)) s

/-- f64::EPSILON, which is 2 to the power minus 52 exactly. -/
def f64Epsilon : Float := 1.0 / 4503599627370496.0

/-- Common shape of the six f64 comparison handlers. -/
def comparison_step_f64 (test : Float → Float → Bool) (s : VMState) : Option VMState := do
  let (r1, s1) ← next8 s
  let v1 ← fregGet s1 r1
  let (r2, s2) ← next8 s1
  let v2 ← fregGet s2 r2
  let (_, s3) ← next8 s2
  some { s3 with equalFlag := test v1 v2 }

/-- comparison_execute_equal_f64 (EQF64): absolute difference below epsilon. -/
def comparison_execute_equal_f64 (s : VMState) : Option VMState :=
  comparison_step_f64 (fun a b => decide ((a - b).abs < f64Epsilon)) s

/-- comparison_execute_not_equal_f64 (NEQF64): absolute difference above epsilon. -/
def comparison_execute_not_equal_f64 (s : VMState) : Option VMState :=
  comparison_step_f64 (fun a b => decide ((a - b).abs > f64Epsilon)) s

/-- comparison_execute_greater_than_f64 (GTF64). -/
def comparison_execute_greater_than_f64 (s : VMState) : Option VMState :=
  comparison_step_f64 (fun a b => decide (a > b)) s

/-- comparison_execute_less_than_f64 (LTF64). -/
def comparison_execute_less_than_f64 (s : VMState) : Option VMState :=
  comparison_step_f64 (fun a b => decide (a < b)) s

/-- comparison_execute_greater_than_or_equal_f64 (GTEF64). -/
def comparison_execute_greater_than_or_equal_f64 (s : VMState) : Option VMState :=
  comparison_step_f64 (fun a b => decide (a ≥ b)) s

/-- comparison_execute_less_than_or_equal_f64 (LTEF64). -/
def comparison_execute_less_than_or_equal_f64 (s : VMState) : Option VMState :=
  comparison_step_f64 (fun a b => decide (a ≤ b)) s

/-! Handlers from src/src/vm/control.rs, plus the LOOP and CLOOP handlers
whose bodies this snapshot keeps in src/lumi_vm_v1_archive/src/vm/control.rs. -/

/-- control_execute_jump (JMP): pc becomes registers[reg] cast to usize. -/
def control_execute_jump (s : VMState) : Option VMState := do
  let (r, s1) ← next8 s
  let v ← regGet s1 r
  some { s1 with pc := toUsize v }

/-- control_execute_jump_forward (JMPF): pc += registers[reg] as usize,
wrapping. -/
def control_execute_jump_forward (s : VMState) : Option VMState := do
  let (r, s1) ← next8 s
  let v ← regGet s1 r
  some { s1 with pc := usizeAdd s1.pc (toUsize v) }

/-- control_execute_jump_backward (JMPB): pc -= registers[reg] as usize,
wrapping. -/
def control_execute_jump_backward (s : VMState) : Option VMState := do
  let (r, s1) ← next8 s
  let v ← regGet s1 r
  some { s1 with pc := usizeSub s1.pc (toUsize v) }

/-- control_execute_jump_if_equal (JMPE): read the register operand; when
equal_flag is set, pc becomes registers[reg]; then a 16-bit read is always
performed, which advances pc by 2 from wherever it now points (the jump
target when the jump was taken). -/
def control_execute_jump_if_equal (s : VMState) : Option VMState := do
  let (r, s1) ← next8 s
  let target ← regGet s1 r
  let s2 := if s1.equalFlag then { s1 with pc := toUsize target } else s1
  let (_, s3) ← next16 s2
  some s3

/-- control_execute_direct_jump (DJMP): 16-bit destination. -/
def control_execute_direct_jump (s : VMState) : Option VMState := do
  let (d, s1) ← next16 s
  some { s1 with pc := d }

/-- control_execute_direct_jump_if_equal (DJMPE): jump to the 16-bit
destination when equal_flag, else consume one padding byte. -/
def control_execute_direct_jump_if_equal (s : VMState) : Option VMState := do
  let (d, s1) ← next16 s
  if s1.equalFlag then some { s1 with pc := d }
  else do
    let (_, s2) ← next8 s1
    some s2

/-- control_execute_loop (LOOP): when the loop counter is nonzero,
decrement it and jump to the 16-bit destination; else skip 3 bytes. -/
def control_execute_loop (s : VMState) : Option VMState :=
  if s.loopCounter ≠ 0 then do
    let s1 := { s with loopCounter := s.loopCounter - 1 }
    let (t, s2) ← next16 s1
    some { s2 with pc := t }
  else some { s with pc := s.pc + 3 }

/-- control_execute_create_loop (CLOOP): set the loop counter from a
16-bit immediate, then consume one padding byte. -/
def control_execute_create_loop (s : VMState) : Option VMState := do
  let (c, s1) ← next16 s
  let (_, s2) ← next8 { s1 with loopCounter := c }
  some s2

/-! Handlers from the archived copy src/lumi_vm_v1_archive/src/vm/logical.rs
and bitwise.rs (dispatched from src/src/vm/mod.rs). -/

/-- Common shape of logical_execute_and, or and xor: combine the u32 bit
patterns of two source registers into the target register. -/
def logical_step (op : Nat → Nat → Nat) (s : VMState) : Option VMState := do
  let (r1, s1) ← next8 s
  let v1 ← regGet s1 r1
  let (r2, s2) ← next8 s1
  let v2 ← regGet s2 r2
  let (r3, s3) ← next8 s2
  regSet s3 r3 (ofU32 (op (toU32 v1) (toU32 v2)))

/-- logical_execute_and (AND). -/
def logical_execute_and (s : VMState) : Option VMState := logical_step Nat.land s

/-- logical_execute_or (OR). -/
def logical_execute_or (s : VMState) : Option VMState := logical_step Nat.lor s

/-- logical_execute_xor (XOR). -/
def logical_execute_xor (s : VMState) : Option VMState := logical_step Nat.xor s

/-- logical_execute_not (NOT): bitwise complement of the source register
into the target register, then one padding byte. -/
def logical_execute_not (s : VMState) : Option VMState := do
  let (r1, s1) ← next8 s
  let v1 ← regGet s1 r1
  let (r2, s2) ← next8 s1
  let s3 ← regSet s2 r2 (ofU32 (Nat.xor (toU32 v1) (2 ^ 32 - 1)))
  let (_, s4) ← next8 s3
  some s4

/-- Rust wrapping_shl on i32: shift by the amount modulo 32, truncating. -/
def wrappingShl32 (v : Int) (amt : Nat) : Int := wrap32 (v * 2 ^ (amt % 32))

/-- Rust wrapping_shr on i32: arithmetic shift right by the amount modulo 32. -/
def wrappingShr32 (v : Int) (amt : Nat) : Int := Int.fdiv v (2 ^ (amt % 32))

/-- bitwise_execute_shift_left (SHL): a zero shift byte means 16; then one
padding byte. -/
def bitwise_execute_shift_left (s : VMState) : Option VMState := do
  let (r, s1) ← next8 s
  let (b, s2) ← next8 s1
  let amt := if b = 0 then 16 else b
  let v ← regGet s2 r
  let s3 ← regSet s2 r (wrappingShl32 v amt)
  let (_, s4) ← next8 s3
  some s4

/-- bitwise_execute_shift_right (SHR): a zero shift byte means 16; then one
padding byte. -/
def bitwise_execute_shift_right (s : VMState) : Option VMState := do
  let (r, s1) ← next8 s
  let (b, s2) ← next8 s1
  let amt := if b = 0 then 16 else b
  let v ← regGet s2 r
  let s3 ← regSet s2 r (wrappingShr32 v amt)
  let (_, s4) ← next8 s3
  some s4

/-! Handlers from src/src/vm/system.rs.  The interactive breakpoint
console reads stdin and is not part of the pure semantics; the run loop
below maps a BreakpointHit to none. -/

/-- Scan for a NUL byte from the given index; running past the end of the
slice panics in the source (modelled by none). -/
def scanNul (l : List Nat) : Nat → Nat → Option Nat
  | _, 0 => none
  | i, fuel + 1 =>
    match l.get? i with
    | none => none
    | some 0 => some i
    | some _ => scanNul l (i + 1) fuel

/-- system_execute_print_string (PRTS): read a 24-bit offset, scan ro_data
for the terminating NUL (panicking past the end), and hand the string to
the log sink; both the ok and the decode-error branch only log, so the
state is unchanged beyond the pc advance. -/
def system_execute_print_string (s : VMState) : Option VMState := do
  let (a, s1) ← next24 s
  match scanNul s1.roData a (s1.roData.length + 1) with
  | some _ => some s1
  | none => none

/-- system_execute_call (CALL): return destination is pc + 3 at handler
entry; read the 16-bit destination; push the return address then the
current bp (both cast to i32); bp becomes sp (which the pushes never
updated); jump. -/
def system_execute_call (s : VMState) : Option VMState := do
  let retDest := s.pc + 3
  let (dest, s1) ← next16 s
  some { s1 with
    stack := ofU32 (s1.bp % 2 ^ 32) :: ofU32 (retDest % 2 ^ 32) :: s1.stack,
    bp := s1.sp,
    pc := dest }

/-- system_execute_return (RET): sp becomes bp, then bp and pc are popped
(unwrap panics on an empty stack); the popped i32 values are cast to usize
with sign extension. -/
def system_execute_return (s : VMState) : Option VMState :=
  match s.stack with
  | b :: p :: rest =>
      some { s with sp := s.bp, bp := toUsize b, pc := toUsize p, stack := rest }
  | _ => none

/-! Opcode catalog from src/src/instruction.rs. -/

/-- Opcode enumeration from src/src/instruction.rs. -/
inductive Opcode where
  | LOAD | ADD | SUB | MUL | DIV | HLT | JMP | JMPF | JMPB
  | EQ | NEQ | GT | LT | GTE | LTE | JMPE | DJMPE | ALOC | INC | DEC
  | NOP | PRTS | IGL | LOADF64 | ADDF64 | SUBF64 | MULF64 | DIVF64
  | EQF64 | NEQF64 | GTF64 | GTEF64 | LTF64 | LTEF64
  | SHL | SHR | AND | OR | XOR | NOT | LUI | CLOOP | LOOP
  | LOADM | SETM | PUSH | POP | CALL | RET | DJMP | BKPT
deriving DecidableEq, Repr

/-- From u8 for Opcode: unknown bytes decode to IGL. -/
def opcodeFromByte (b : Nat) : Opcode :=
  match b with
  | 0 => .LOAD | 1 => .ADD | 2 => .SUB | 3 => .MUL | 4 => .DIV
  | 5 => .HLT | 6 => .JMP | 7 => .JMPF | 8 => .JMPB
  | 9 => .EQ | 10 => .NEQ | 11 => .GT | 12 => .LT | 13 => .GTE | 14 => .LTE
  | 15 => .JMPE | 16 => .DJMPE | 17 => .ALOC | 18 => .INC | 19 => .DEC
  | 20 => .NOP | 21 => .PRTS
  | 22 => .LOADF64 | 23 => .ADDF64 | 24 => .SUBF64 | 25 => .MULF64 | 26 => .DIVF64
  | 27 => .EQF64 | 28 => .NEQF64 | 29 => .GTF64 | 30 => .GTEF64
  | 31 => .LTF64 | 32 => .LTEF64
  | 33 => .SHL | 34 => .SHR | 35 => .AND | 36 => .OR | 37 => .XOR | 38 => .NOT
  | 39 => .LUI | 40 => .CLOOP | 41 => .LOOP | 42 => .LOADM | 43 => .SETM
  | 44 => .PUSH | 45 => .POP | 46 => .CALL | 47 => .RET | 48 => .DJMP | 49 => .BKPT
  | _ => .IGL

/-- From Opcode for u8 (IGL carries the reserved code 100). -/
def opcodeToByte (op : Opcode) : Nat :=
  match op with
  | .LOAD => 0 | .ADD => 1 | .SUB => 2 | .MUL => 3 | .DIV => 4
  | .HLT => 5 | .JMP => 6 | .JMPF => 7 | .JMPB => 8
  | .EQ => 9 | .NEQ => 10 | .GT => 11 | .LT => 12 | .GTE => 13 | .LTE => 14
  | .JMPE => 15 | .DJMPE => 16 | .ALOC => 17 | .INC => 18 | .DEC => 19
  | .NOP => 20 | .PRTS => 21
  | .LOADF64 => 22 | .ADDF64 => 23 | .SUBF64 => 24 | .MULF64 => 25 | .DIVF64 => 26
  | .EQF64 => 27 | .NEQF64 => 28 | .GTF64 => 29 | .GTEF64 => 30
  | .LTF64 => 31 | .LTEF64 => 32
  | .SHL => 33 | .SHR => 34 | .AND => 35 | .OR => 36 | .XOR => 37 | .NOT => 38
  | .LUI => 39 | .CLOOP => 40 | .LOOP => 41 | .LOADM => 42 | .SETM => 43
  | .PUSH => 44 | .POP => 45 | .CALL => 46 | .RET => 47 | .DJMP => 48 | .BKPT => 49
  | .IGL => 100

/-! The fetch-decode-execute loop from src/src/vm/mod.rs. -/

/-- Wrap a handler result as a Continue status. -/
def contin (o : Option VMState) : Option (VMState × ExecutionStatus) :=
  o.map (fun t => (t, ExecutionStatus.Continue))

/-- Three consecutive next_8_bits padding reads, as both the BKPT and the
NOP arms of execute_instruction perform them. -/
def read3pad (s : VMState) : Option VMState := do
  let (_, s1) ← next8 s
  let (_, s2) ← next8 s1
  let (_, s3) ← next8 s2
  some s3

/-- The BKPT arm of execute_instruction: three padding reads, then
BreakpointHit. -/
def breakpointArm (s : VMState) : Option (VMState × ExecutionStatus) :=
  (read3pad s).map (fun t => (t, ExecutionStatus.BreakpointHit))

/-- The dispatch of execute_instruction over the decoded opcode, applied to
the state with pc already advanced past the opcode byte. -/
def execOp (op : Opcode) (s : VMState) : Option (VMState × ExecutionStatus) :=
  match op with
  | .HLT => some (s, .Done 0)
  | .BKPT => breakpointArm s
  | .LOAD => contin (memory_execute_load s)
  | .ADD => contin (arithmetic_execute_add s)
  | .SUB => contin (arithmetic_execute_sub s)
  | .MUL => contin (arithmetic_execute_mul s)
  | .DIV => contin (arithmetic_execute_div s)
  | .JMP => contin (control_execute_jump s)
  | .JMPF => contin (control_execute_jump_forward s)
  | .JMPB => contin (control_execute_jump_backward s)
  | .EQ => contin (comparison_execute_equal s)
  | .NEQ => contin (comparison_execute_not_equal s)
  | .GT => contin (comparison_execute_greater_than s)
  | .LT => contin (comparison_execute_less_than s)
  | .GTE => contin (comparison_execute_greater_than_or_equal s)
  | .LTE => contin (comparison_execute_less_than_or_equal s)
  | .JMPE => contin (control_execute_jump_if_equal s)
  | .DJMP => contin (control_execute_direct_jump s)
  | .DJMPE => contin (control_execute_direct_jump_if_equal s)
  | .ALOC => contin (memory_execute_allocate s)
  | .INC => contin (arithmetic_execute_increment s)
  | .DEC => contin (arithmetic_execute_decrement s)
  | .PRTS => contin (system_execute_print_string s)
  | .AND => contin (logical_execute_and s)
  | .OR => contin (logical_execute_or s)
  | .XOR => contin (logical_execute_xor s)
  | .NOT => contin (logical_execute_not s)
  | .LUI => contin (memory_execute_load_upper_immediate s)
  | .SHL => contin (bitwise_execute_shift_left s)
  | .SHR => contin (bitwise_execute_shift_right s)
  | .LOADM => contin (memory_execute_load_memory s)
  | .SETM => contin (memory_execute_set_memory s)
  | .PUSH => contin (memory_execute_push_to_stack s)
  | .POP => contin (memory_execute_pop_from_stack s)
  | .LOOP => contin (control_execute_loop s)
  | .CLOOP => contin (control_execute_create_loop s)
  | .CALL => contin (system_execute_call s)
  | .RET => contin (system_execute_return s)
  | .LOADF64 => contin (memory_execute_load_f64 s)
  | .ADDF64 => contin (arithmetic_execute_add_f64 s)
  | .SUBF64 => contin (arithmetic_execute_sub_f64 s)
  | .MULF64 => contin (arithmetic_execute_mul_f64 s)
  | .DIVF64 => contin (arithmetic_execute_div_f64 s)
  | .EQF64 => contin (comparison_execute_equal_f64 s)
  | .NEQF64 => contin (comparison_execute_not_equal_f64 s)
  | .GTF64 => contin (comparison_execute_greater_than_f64 s)
  | .GTEF64 => contin (comparison_execute_greater_than_or_equal_f64 s)
  | .LTF64 => contin (comparison_execute_less_than_f64 s)
  | .LTEF64 => contin (comparison_execute_less_than_or_equal_f64 s)
  | .NOP => contin (read3pad s)
  | .IGL => some (s, .Done 1)

/-- Recompute one watched variable; indexing past the heap or the register
file panics. -/
def watchOne (s : VMState) (w : WatchVariable) : Option WatchVariable :=
  match w.watchType with
  | .Memory addr =>
      match s.heap.get? addr with
      | some b => some { w with lastValue := Int.ofNat b }
      | none => none
  | .Register i =>
      match s.registers.get? i with
      | some v => some { w with lastValue := v }
      | none => none

/-- The watch-variable pass at the top of execute_instruction. -/
def watchPass (s : VMState) : Option VMState :=
  (s.watchVariables.mapM (watchOne s)).map
    (fun ws => { s with watchVariables := ws })

/-- execute_instruction from src/src/vm/mod.rs: the end-of-program check,
the watch pass, the opcode decode, and the dispatch. -/
def executeInstruction (s : VMState) : Option (VMState × ExecutionStatus) :=
  if s.program.length ≤ s.pc then some (s, .Done 1)
  else do
    let s0 ← watchPass s
    let (b, s1) ← next8 s0
    execOp (opcodeFromByte b) s1

/-- The while loop of run(): iterate execute_instruction until a Done code.
A BreakpointHit enters the interactive stdin console in the source, which
the pure model cannot represent (none).  Fuel bounds the iteration; the
theorems quantify over or exhibit a sufficient fuel. -/
def vmRunLoop : Nat → VMState → Option (Nat × VMState)
  | 0, _ => none
  | fuel + 1, s =>
    match executeInstruction s with
    | none => none
    | some (s1, .Continue) => vmRunLoop fuel s1
    | some (_, .BreakpointHit) => none
    | some (s1, .Done code) => some (code, s1)

/-- LUMI_HEADER_PREFIX: the four magic bytes. -/
def lumiMagic : List Nat := [76, 85, 77, 73]

/-- LUMI_HEADER_LENGTH from the header utilities (the assembler module
declares the same constant with the same value). -/
def lumiHeaderLength : Nat := 64

/-- get_starting_offset from src/src/vm/mod.rs: the u32 little-endian
field read from program bytes 65 to 68.  The Cursor slice panics on a
shorter program, which vmRun checks before using this value. -/
def roLength (prog : List Nat) : Nat :=
  readU32LE (prog.getD (lumiHeaderLength + 1) 0) (prog.getD (lumiHeaderLength + 2) 0)
    (prog.getD (lumiHeaderLength + 3) 0) (prog.getD (lumiHeaderLength + 4) 0)

/-- The byte position where the code starts: header, transitional byte,
the 4-byte read-only length field, then the read-only blob. -/
def codeStart (prog : List Nat) : Nat := lumiHeaderLength + 1 + 4 + roLength prog

/-- run() from src/src/vm/mod.rs.  The event vector of the VM is threaded
as the ev0 argument (no handler ever touches it; only run appends).
The returned list is the events clone run hands back; none models a panic
inside run, including the header slice panic on a program shorter than
4 bytes and the read-only slice panics on a program shorter than the
header plus the declared read-only length. -/
def vmRun (fuel : Nat) (ev0 : List VMEventType) (s : VMState) :
    Option (List VMEventType) :=
  let evs := ev0 ++ [VMEventType.Start]
  if s.program.length < 4 then none
  else if s.program.take 4 ≠ lumiMagic then some (evs ++ [VMEventType.Crash 1])
  else if s.program.length < lumiHeaderLength + 1 + 4 then none
  else if s.program.length < codeStart s.program then none
  else
    let s1 := { s with
      pc := codeStart s.program,
      roData := ((s.program.drop (lumiHeaderLength + 1 + 4)).take (roLength s.program)) }
    match vmRunLoop fuel s1 with
    | none => none
    | some (code, _) => some (evs ++ [VMEventType.GracefulStop code])

/-! The assembler from src/src/assembler.  The nom text parser is outside
the claims' scope; programs enter the embedding as the parsed list of
AssemblerInstruction records (the Program wrapper of program_parsers is
modelled from the spec: an ordered sequence of parsed instructions). -/

/-- Token from src/src/assembler/mod.rs. -/
inductive Token where
  | Op (code : Opcode)
  | Register (regNum : Nat)
  | IntegerOperand (value : Int)
  | FloatOperand (value : Float)
  | LabelDeclaration (name : String)
  | LabelUsage (name : String)
  | Directive (name : String)
  | LString (name : String)
  | Separator
  | Comment

/-- SymbolType from the symbols module of the assembler (archived copy
src/lumi_vm_v1_archive/src/assembler/symbols.rs; mod.rs under
src/src/assembler declares and uses it). -/
inductive SymbolType where
  | Label | Integer | IrString
deriving DecidableEq, Repr

/-- Symbol record: name, optional byte offset, kind. -/
structure Symbol where
  name : String
  offset : Option Nat
  symbolType : SymbolType
deriving DecidableEq, Repr

/-- SymbolTable: insertion-ordered list of symbols. -/
structure SymbolTable where
  symbols : List Symbol
deriving DecidableEq, Repr

/-- SymbolTable::has_symbol. -/
def SymbolTable.has_symbol (t : SymbolTable) (s : String) : Bool :=
  t.symbols.any (fun sym => sym.name == s)

/-- SymbolTable::add_symbol. -/
def SymbolTable.add_symbol (t : SymbolTable) (sym : Symbol) : SymbolTable :=
  { symbols := t.symbols ++ [sym] }

/-- SymbolTable::set_symbol_offset: update the first symbol of that name. -/
def SymbolTable.set_symbol_offset (t : SymbolTable) (s : String) (off : Nat) : SymbolTable :=
  { symbols :=
      match t.symbols.findIdx? (fun sym => sym.name == s) with
      | some i =>
          match t.symbols.get? i with
          | some sym => t.symbols.set i { sym with offset := some off }
          | none => t.symbols
      | none => t.symbols }

/-- SymbolTable::symbol_value: the offset of the first symbol of that name
(None both for a missing symbol and for a symbol without an offset). -/
def SymbolTable.symbol_value (t : SymbolTable) (s : String) : Option Nat :=
  match t.symbols.find? (fun sym => sym.name == s) with
  | some sym => sym.offset
  | none => none

/-- AssemblerInstruction from src/src/assembler/instruction_parsers.rs. -/
structure AsmInstruction where
  opcode : Option Token
  operand_1 : Option Token
  operand_2 : Option Token
  operand_3 : Option Token
  label : Option Token
  directive : Option Token

/-- An instruction record with every field empty. -/
def emptyInstruction : AsmInstruction :=
  { opcode := none, operand_1 := none, operand_2 := none, operand_3 := none,
    label := none, directive := none }

/-- AssemblerInstruction::is_label. -/
def AsmInstruction.is_label (i : AsmInstruction) : Bool := i.label.isSome

/-- AssemblerInstruction::is_opcode. -/
def AsmInstruction.is_opcode (i : AsmInstruction) : Bool := i.opcode.isSome

/-- AssemblerInstruction::is_directive. -/
def AsmInstruction.is_directive (i : AsmInstruction) : Bool := i.directive.isSome

/-- AssemblerInstruction::has_operands. -/
def AsmInstruction.has_operands (i : AsmInstruction) : Bool :=
  i.operand_1.isSome || i.operand_2.isSome || i.operand_3.isSome

/-- AssemblerInstruction::get_directive_name. -/
def AsmInstruction.get_directive_name (i : AsmInstruction) : Option String :=
  match i.directive with
  | some (Token.Directive name) => some name
  | _ => none

/-- AssemblerInstruction::get_string_constant (from operand 1). -/
def AsmInstruction.get_string_constant (i : AsmInstruction) : Option String :=
  match i.operand_1 with
  | some (Token.LString name) => some name
  | _ => none

/-- AssemblerInstruction::get_label_name. -/
def AsmInstruction.get_label_name (i : AsmInstruction) : Option String :=
  match i.label with
  | some (Token.LabelDeclaration name) => some name
  | _ => none

/-- AssemblerInstruction::get_i32_constant (from operand 1). -/
def AsmInstruction.get_i32_constant (i : AsmInstruction) : Option Int :=
  match i.operand_1 with
  | some (Token.IntegerOperand value) => some value
  | _ => none

/-- AssemblerInstruction::extract_operand from
src/src/assembler/instruction_parsers.rs, as the list of bytes it pushes:
a register pushes its one byte; an integer operand is truncated to i16 and
pushed as 2 little-endian bytes; a resolved label reference pushes only the
first 2 little-endian bytes of the u32 offset; an unresolved label or any
other token only logs an error and pushes nothing. -/
def extract_operand (t : Token) (symbols : SymbolTable) : List Nat :=
  match t with
  | Token.Register n => [n]
  | Token.IntegerOperand v => i16LEBytes v
  | Token.LabelUsage name =>
      match symbols.symbol_value name with
      | some v => (u32Bytes (v % 2 ^ 32)).take 2
      | none => []
  | _ => []

/-- AssemblerInstruction::to_bytes: the opcode byte (nothing on a
non-opcode token), the operand bytes in order, then zero padding up to a
minimum length of 4. -/
def to_bytes (i : AsmInstruction) (symbols : SymbolTable) : List Nat :=
  let head : List Nat :=
    match i.opcode with
    | some (Token.Op c) => [opcodeToByte c]
    | some _ => []
    | none => []
  let res := head
    ++ (match i.operand_1 with | some t => extract_operand t symbols | none => [])
    ++ (match i.operand_2 with | some t => extract_operand t symbols | none => [])
    ++ (match i.operand_3 with | some t => extract_operand t symbols | none => [])
  res ++ List.replicate (4 - res.length) 0

/-- AssemblerError from the assembler errors module (archived copy
src/lumi_vm_v1_archive/src/assembler/assembler_errors.rs). -/
inductive AsmError where
  | NoSegmentDeclarationFound (instruction : Nat)
  | StringConstantDeclaredWithoutLabel (instruction : Nat)
  | SymbolAlreadyDeclared
  | UnknownDirectiveFound (directive : String)
  | NonOpcodeInOpcodeField
  | InsufficientSections
  | ParseError (error : String)
deriving DecidableEq, Repr

/-- AssemblerPhase. -/
inductive AsmPhase where
  | First | Second
deriving DecidableEq, Repr

/-- AssemblerSection from src/src/assembler/mod.rs. -/
inductive AsmSection where
  | Data (startingInstruction : Option Nat)
  | Code (startingInstruction : Option Nat)
  | Unknown
deriving DecidableEq, Repr

/-- From a string for AssemblerSection. -/
def sectionFromName (s : String) : AsmSection :=
  match s with
  | "data" => AsmSection.Data none
  | "code" => AsmSection.Code none
  | _ => AsmSection.Unknown

/-- The mutable fields of the Assembler that the two passes use. -/
structure AsmState where
  phase : AsmPhase
  symbols : SymbolTable
  ro : List Nat
  roOffset : Nat
  sections : List AsmSection
  currentSection : Option AsmSection
  currentInstruction : Nat
  errors : List AsmError

/-- Assembler::new. -/
def asmNew : AsmState where
  phase := AsmPhase.First
  symbols := { symbols := [] }
  ro := []
  roOffset := 0
  sections := []
  currentSection := none
  currentInstruction := 0
  errors := []

/-- Assembler::process_label_declaration: record a code label whose offset
uses the legacy 4-byte instruction stride over the running instruction
counter, plus the header length plus one. -/
def process_label_declaration (st : AsmState) (inst : AsmInstruction) : AsmState :=
  match inst.get_label_name with
  | none =>
      { st with errors := st.errors
          ++ [AsmError.StringConstantDeclaredWithoutLabel st.currentInstruction] }
  | some name =>
      if st.symbols.has_symbol name then
        { st with errors := st.errors ++ [AsmError.SymbolAlreadyDeclared] }
      else
        let sym : Symbol :=
          { name := name,
            offset := some (st.currentInstruction * 4 + lumiHeaderLength + 1),
            symbolType := SymbolType.Label }
        { st with symbols := st.symbols.add_symbol sym }

/-- The UTF-8 bytes of a string constant. -/
def strBytes (s : String) : List Nat := s.toUTF8.toList.map (fun b => b.toNat)

/-- Assembler::handle_asciiz: first phase only; needs a string constant
and a label; sets the label's offset to the current read-only offset and
appends the string bytes plus a NUL terminator to the read-only blob. -/
def handle_asciiz (st : AsmState) (inst : AsmInstruction) : AsmState :=
  if st.phase ≠ AsmPhase.First then st
  else
    match inst.get_string_constant with
    | some strC =>
        match inst.get_label_name with
        | some name =>
            let st1 := { st with symbols := st.symbols.set_symbol_offset name st.roOffset }
            { st1 with ro := st1.ro ++ strBytes strC ++ [0],
                       roOffset := st1.roOffset + (strBytes strC).length + 1 }
        | none => st
    | none => st

/-- Assembler::handle_integer: first phase only; needs an i32 constant and
a label; sets the label's offset and appends the 4 little-endian bytes. -/
def handle_integer (st : AsmState) (inst : AsmInstruction) : AsmState :=
  if st.phase ≠ AsmPhase.First then st
  else
    match inst.get_i32_constant with
    | some v =>
        match inst.get_label_name with
        | some name =>
            let st1 := { st with symbols := st.symbols.set_symbol_offset name st.roOffset }
            { st1 with ro := st1.ro ++ i32LEBytes v, roOffset := st1.roOffset + 4 }
        | none => st
    | none => st

/-- Assembler::process_section_header: an unknown name only logs; a known
name starts a section at the current instruction index, appends it to the
section list and makes it current. -/
def process_section_header (st : AsmState) (headerName : String) : AsmState :=
  match sectionFromName headerName with
  | AsmSection.Unknown => st
  | AsmSection.Data _ =>
      let sec := AsmSection.Data (some st.currentInstruction)
      { st with sections := st.sections ++ [sec], currentSection := some sec }
  | AsmSection.Code _ =>
      let sec := AsmSection.Code (some st.currentInstruction)
      { st with sections := st.sections ++ [sec], currentSection := some sec }

/-- Assembler::process_directive: with operands, only asciiz and integer
are handled and every other name (including float) records an
UnknownDirectiveFound error; without operands the name is a section
header. -/
def process_directive (st : AsmState) (inst : AsmInstruction) : AsmState :=
  match inst.get_directive_name with
  | none => st
  | some dname =>
      if inst.has_operands then
        match dname with
        | "asciiz" => handle_asciiz st inst
        | "integer" => handle_integer st inst
        | _ => { st with errors := st.errors ++ [AsmError.UnknownDirectiveFound dname] }
      else process_section_header st dname

/-- One instruction of Assembler::process_first_phase. -/
def phase1Step (st : AsmState) (inst : AsmInstruction) : AsmState :=
  let st1 :=
    if inst.is_label then
      if st.currentSection.isSome then process_label_declaration st inst
      else { st with errors := st.errors
              ++ [AsmError.NoSegmentDeclarationFound st.currentInstruction] }
    else st
  let st2 := if inst.is_directive then process_directive st1 inst else st1
  { st2 with currentInstruction := st2.currentInstruction + 1 }

/-- Assembler::process_first_phase. -/
def process_first_phase (st : AsmState) (prog : List AsmInstruction) : AsmState :=
  { prog.foldl phase1Step st with phase := AsmPhase.Second }

/-- Assembler::process_second_phase: directives are skipped; each
opcode-bearing instruction contributes its to_bytes encoding. -/
def process_second_phase (st : AsmState) (prog : List AsmInstruction) : List Nat :=
  prog.foldl
    (fun acc i =>
      if i.is_directive then acc
      else if i.is_opcode then acc ++ to_bytes i st.symbols
      else acc) []

/-- Assembler::write_lumi_header: the four magic bytes, zero padding while
the length is at most 64 (so 61 pad bytes, a 65-byte header), then the
read-only length as u32 little-endian. -/
def write_lumi_header (roLen : Nat) : List Nat :=
  (lumiMagic ++ List.replicate (lumiHeaderLength + 1 - 4) 0) ++ u32Bytes (roLen % 2 ^ 32)

/-- Assembler::assemble from the parsed program on: run the first phase,
fail on collected errors, require exactly two sections, then emit the
header, the read-only blob and the second-phase body. -/
def assembleProgram (prog : List AsmInstruction) : Except (List AsmError) (List Nat) :=
  let st := process_first_phase asmNew prog
  if st.errors ≠ [] then Except.error st.errors
  else if st.sections.length ≠ 2 then Except.error (st.errors ++ [AsmError.InsufficientSections])
  else Except.ok (write_lumi_header st.ro.length ++ st.ro ++ process_second_phase st prog)

/-! The disassembler from src/src/util/disassembler.rs.  Its loop reads
four bytes per step (panicking past the end of the buffer) but never
appends anything to the output string, which stays empty. -/

/-- The while loop of disassemble: some () when the scan completes, none
when an operand read indexes past the buffer. -/
def disassembleLoop (b : List Nat) : Nat → Nat → Option Unit
  | _, 0 => none
  | pc, fuel + 1 =>
    if pc < b.length then
      match b.get? (pc + 1), b.get? (pc + 2), b.get? (pc + 3) with
      | some _, some _, some _ => disassembleLoop b (pc + 4) fuel
      | _, _, _ => none
    else some ()

/-- disassemble: scan the buffer four bytes at a time and return the
(never extended) output string. -/
def disassemble (b : List Nat) : Option String :=
  (disassembleLoop b 0 (b.length + 1)).map (fun _ => "")

/-! Linear fall-through.  A byte position falls through to HLT when the
instruction there is HLT, or is a straight-line instruction (one that
neither transfers control nor can panic: its operand bytes exist and its
register operand bytes address the 32-register file) whose successor
position falls through.  The covered straight-line opcodes are LOAD,
ADD, SUB, MUL, the six integer comparisons, INC, DEC, NOP, SETM and PUSH;
each consumes its exact encoded width, which the spec fixes as 1 plus the
operand bytes the handler reads. -/

/-- The byte at the given position exists and addresses the register file. -/
def regByteOk (prog : List Nat) (i : Nat) : Bool :=
  match prog.get? i with
  | some r => r < 32
  | none => false

/-- The byte at the given position exists. -/
def byteExists (prog : List Nat) (i : Nat) : Bool := (prog.get? i).isSome

/-- Fuel-indexed linear fall-through to an HLT opcode. -/
def fallsThroughF : Nat → List Nat → Nat → Bool
  | 0, _, _ => false
  | n + 1, prog, pc =>
    match prog.get? pc with
    | none => false
    | some b =>
      if b = 5 then true
      else if b = 0 then
        regByteOk prog (pc + 1) && byteExists prog (pc + 2) && byteExists prog (pc + 3)
          && fallsThroughF n prog (pc + 4)
      else if b = 1 ∨ b = 2 ∨ b = 3 then
        regByteOk prog (pc + 1) && regByteOk prog (pc + 2) && regByteOk prog (pc + 3)
          && fallsThroughF n prog (pc + 4)
      else if 9 ≤ b ∧ b ≤ 14 then
        regByteOk prog (pc + 1) && regByteOk prog (pc + 2) && byteExists prog (pc + 3)
          && fallsThroughF n prog (pc + 4)
      else if b = 18 ∨ b = 19 then
        regByteOk prog (pc + 1) && byteExists prog (pc + 2) && byteExists prog (pc + 3)
          && fallsThroughF n prog (pc + 4)
      else if b = 20 then
        byteExists prog (pc + 1) && byteExists prog (pc + 2) && byteExists prog (pc + 3)
          && fallsThroughF n prog (pc + 4)
      else if b = 43 then
        regByteOk prog (pc + 1) && regByteOk prog (pc + 2) && fallsThroughF n prog (pc + 3)
      else if b = 44 then
        regByteOk prog (pc + 1) && fallsThroughF n prog (pc + 2)
      else false

/-! Concrete instances used by witnesses and counterexamples. -/

/-- A container holding only an HLT instruction byte after the header. -/
def exProgHlt : List Nat := lumiMagic ++ List.replicate 61 0 ++ [0, 0, 0, 0] ++ [5]

/-- A container whose first code byte is LOADM with all registers zero and
an empty heap, so the load reads past the heap. -/
def exProgLoadm : List Nat := lumiMagic ++ List.replicate 61 0 ++ [0, 0, 0, 0] ++ [42, 0, 0, 0]

/-- A buffer whose first four bytes are not the LUMI magic. -/
def exProgBadHeader : List Nat := [1, 2, 3, 4]

/-- A register file with one entry overridden. -/
def exRegs (i : Nat) (v : Int) : List Int := (List.replicate 32 0).set i v

/-- State for the SETM counterexample: offset register 0 holds 0 (in
bounds for the 4-byte heap), data register 1 holds 5. -/
def exStSetm : VMState := { vmNew with
  program := [0, 1]
  heap := [9, 9, 9, 9]
  registers := exRegs 1 5 }

/-- State for the JMPE counterexample, mirroring the second half of the
source test test_jeq_opcode: pc at the JMPE operand byte, equal flag set,
register 0 holding the jump target 7. -/
def exStJmpe : VMState := { vmNew with
  program := [15, 0, 0, 0, 15, 0, 0, 0, 16, 0, 0, 0]
  pc := 4
  equalFlag := true
  registers := exRegs 0 7 }

/-- State for the JMPE witness with the equal flag clear. -/
def exStJmpeClear : VMState := { vmNew with
  program := [15, 0, 0, 0, 15, 0, 0, 0, 16, 0, 0, 0]
  pc := 1
  equalFlag := false }

/-- State for the CALL counterexample: empty stack, sp and bp zero, pc at
the 16-bit destination operand. -/
def exStCall : VMState := { vmNew with program := [10, 0] }

/-- State for the PUSH witness. -/
def exStPush : VMState := { vmNew with program := [3], stack := [], sp := 0 }

/-- State for the POP witness. -/
def exStPop : VMState := { vmNew with program := [2], stack := [7], sp := 1 }

/-- State for the LOADM witness of the amended memory-safety claim. -/
def exStLoadm : VMState := { vmNew with program := [42, 0, 0, 0], heap := [1, 2] }

/-- Parsed .data section header. -/
def exInstData : AsmInstruction := { emptyInstruction with
  directive := some (Token.Directive "data") }

/-- Parsed .code section header. -/
def exInstCode : AsmInstruction := { emptyInstruction with
  directive := some (Token.Directive "code") }

/-- Parsed hlt instruction. -/
def exInstHlt : AsmInstruction := { emptyInstruction with
  opcode := some (Token.Op Opcode.HLT) }

/-- Parsed labeled .float directive with a float operand. -/
def exInstFloat : AsmInstruction := { emptyInstruction with
  directive := some (Token.Directive "float")
  label := some (Token.LabelDeclaration "f")
  operand_1 := some (Token.FloatOperand 3.5) }

/-- The smallest cleanly assembling program: a data section, a code
section and one hlt. -/
def exProgMin : List AsmInstruction := [exInstData, exInstCode, exInstHlt]

/-- An empty symbol table. -/
def exSymsEmpty : SymbolTable := { symbols := [] }

/-- The container the assembler produces for the smallest program: the
65-byte header, a zero read-only length, and the padded HLT encoding. -/
def exContainerMin : List Nat := lumiMagic ++ List.replicate 61 0 ++ [0, 0, 0, 0] ++ [5, 0, 0, 0]

/-- The JMPE witness state at handler entry with the equal flag set. -/
def exStJmpeH : VMState := { vmNew with
  program := [15, 0, 0, 0, 15, 0, 0, 0, 16, 0, 0, 0]
  pc := 5
  equalFlag := true
  registers := exRegs 0 7 }

/-- The number of bytes an operand token contributes to the emitted
encoding of an instruction: one for a register, two for an integer
immediate (written as i16), two for a label reference the symbol table
resolves, and zero for an unresolved label or any other token. -/
def operandEmitSize (syms : SymbolTable) (t : Option Token) : Nat :=
  match t with
  | some (Token.Register _) => 1
  | some (Token.IntegerOperand _) => 2
  | some (Token.LabelUsage name) =>
      match syms.symbol_value name with
      | some _ => 2
      | none => 0
  | some _ => 0
  | none => 0

/-- The number of bytes the opcode field contributes: one when it holds an
opcode token, zero otherwise. -/
def opcodeEmitSize (t : Option Token) : Nat :=
  match t with
  | some (Token.Op _) => 1
  | _ => 0

/-! Helper lemmas about the embedding, shared by the claim theorems. -/

/-- The watch pass is the identity when no variables are watched. -/
theorem watchPass_nil (s : VMState) (h : s.watchVariables = []) : watchPass s = some s := by
  simp [watchPass, h]
  exact ⟨[], rfl, by rw [← h]⟩

/-- An i32 value always encodes to exactly 4 little-endian bytes. -/
theorem i32LEBytes_length (x : Int) : (i32LEBytes x).length = 4 := by
  simp [i32LEBytes, u32Bytes]

/-- Wrapping usize decrement of a machine-range successor. -/
theorem usizeSub_succ_one (n : Nat) (h : n < 2 ^ 64) : usizeSub (n + 1) 1 = n := by
  simp [usizeSub]
  omega

/-- Unfolding of a successful register-byte test. -/
theorem regByteOk_spec (prog : List Nat) (i : Nat) (h : regByteOk prog i = true) :
    ∃ r, prog[i]? = some r ∧ r < 32 := by
  unfold regByteOk at h
  cases hg : prog.get? i with
  | none => rw [hg] at h; cases h
  | some r =>
      rw [hg] at h
      rw [List.get?_eq_getElem?] at hg
      exact ⟨r, hg, by simpa using h⟩

/-- Unfolding of a successful byte-existence test. -/
theorem byteExists_spec (prog : List Nat) (i : Nat) (h : byteExists prog i = true) :
    ∃ b, prog[i]? = some b := by
  unfold byteExists at h
  cases hg : prog.get? i with
  | none => rw [hg] at h; cases h
  | some b =>
      rw [List.get?_eq_getElem?] at hg
      exact ⟨b, hg⟩

/-- A register index below the file length always reads a value. -/
theorem reg_read (l : List Int) (i : Nat) (h : i < l.length) : ∃ v, l[i]? = some v :=
  ⟨_, List.getElem?_eq_getElem h⟩

/-- A successful handler yields a Continue step. -/
theorem contin_some {o : Option VMState} {t : VMState} (h : o = some t) :
    contin o = some (t, ExecutionStatus.Continue) := by rw [h]; rfl

/-- A Continue-wrapped arm only ever reports Continue. -/
theorem contin_status (o : Option VMState) (t : VMState) (st : ExecutionStatus)
    (h : contin o = some (t, st)) : st = ExecutionStatus.Continue := by
  cases o with
  | none => simp [contin] at h
  | some x =>
      simp [contin] at h
      exact h.2.symm

/-- The BKPT arm only ever reports BreakpointHit. -/
theorem breakpointArm_status (s t : VMState) (st : ExecutionStatus)
    (h : breakpointArm s = some (t, st)) : st = ExecutionStatus.BreakpointHit := by
  simp [breakpointArm] at h
  obtain ⟨a, ha, h1, h2⟩ := h
  exact h2.symm

/-- Reduction of execute_instruction through the decode to the dispatch,
for a watch-free state whose pc reads the given opcode byte. -/
theorem exec_continue (s : VMState) (b : Nat) (t : VMState)
    (hw : s.watchVariables = [])
    (h0 : s.program[s.pc]? = some b)
    (harm : execOp (opcodeFromByte b) { s with pc := s.pc + 1 } =
      some (t, ExecutionStatus.Continue)) :
    executeInstruction s = some (t, ExecutionStatus.Continue) := by
  have hpc : s.pc < s.program.length := (List.getElem?_eq_some.mp h0).1
  unfold executeInstruction
  rw [if_neg (by omega), watchPass_nil s hw]
  simp only [bind, Option.bind]
  rw [next8]
  simp only [List.get?_eq_getElem?, h0]
  exact harm

/-- Executing at an HLT byte yields the terminal Done 0 status. -/
theorem exec_hlt (s : VMState)
    (hw : s.watchVariables = [])
    (h0 : s.program[s.pc]? = some 5) :
    executeInstruction s = some ({ s with pc := s.pc + 1 }, ExecutionStatus.Done 0) := by
  have hpc : s.pc < s.program.length := (List.getElem?_eq_some.mp h0).1
  unfold executeInstruction
  rw [if_neg (by omega), watchPass_nil s hw]
  simp only [bind, Option.bind]
  rw [next8]
  simp only [List.get?_eq_getElem?, h0]
  rfl

/-- Every terminal Done code execute_instruction can produce is 0 or 1. -/
theorem exec_done_code (s t : VMState) (c : Nat)
    (h : executeInstruction s = some (t, ExecutionStatus.Done c)) : c = 0 ∨ c = 1 := by
  unfold executeInstruction at h
  by_cases hpc : s.program.length ≤ s.pc
  · rw [if_pos hpc] at h
    simp at h
    exact Or.inr h.2.symm
  · rw [if_neg hpc] at h
    simp only [bind, Option.bind_eq_some] at h
    obtain ⟨s0, hw, h⟩ := h
    obtain ⟨⟨b, s1⟩, hb, h⟩ := h
    generalize opcodeFromByte b = op at h
    cases op <;>
      first
      | exact absurd (contin_status _ _ _ h) (by simp)
      | exact absurd (breakpointArm_status _ _ _ h) (by simp)
      | (simp [execOp] at h; exact Or.inl h.2.symm)
      | (simp [execOp] at h; exact Or.inr h.2.symm)

/-- Unfolding of one iteration of the run loop. -/
theorem vmRunLoop_succ (fuel : Nat) (s : VMState) :
    vmRunLoop (fuel + 1) s =
      match executeInstruction s with
      | none => none
      | some (s1, ExecutionStatus.Continue) => vmRunLoop fuel s1
      | some (_, ExecutionStatus.BreakpointHit) => none
      | some (s1, ExecutionStatus.Done code) => some (code, s1) := rfl

/-- A Continue step unfolds one loop iteration. -/
theorem vmRunLoop_continue (n : Nat) (s t : VMState)
    (h : executeInstruction s = some (t, ExecutionStatus.Continue)) :
    vmRunLoop (n + 1) s = vmRunLoop n t := by
  rw [vmRunLoop_succ, h]

/-- A Done step terminates the loop with its code. -/
theorem vmRunLoop_done (n : Nat) (s t : VMState) (c : Nat)
    (h : executeInstruction s = some (t, ExecutionStatus.Done c)) :
    vmRunLoop (n + 1) s = some (c, t) := by
  rw [vmRunLoop_succ, h]

/-- Every code the run loop terminates with is 0 or 1. -/
theorem vmRunLoop_code : ∀ (fuel : Nat) (s : VMState) (c : Nat) (t : VMState),
    vmRunLoop fuel s = some (c, t) → c = 0 ∨ c = 1 := by
  intro fuel
  induction fuel with
  | zero => intro s c t h; simp [vmRunLoop] at h
  | succ n ih =>
      intro s c t h
      unfold vmRunLoop at h
      cases hx : executeInstruction s with
      | none => rw [hx] at h; cases h
      | some p =>
          rw [hx] at h
          obtain ⟨s1, st⟩ := p
          cases st with
          | Continue => exact ih s1 c t h
          | BreakpointHit => cases h
          | Done code =>
              simp at h
              exact h.1 ▸ exec_done_code s s1 code hx

/-! Explicit results of the straight-line handlers, used to drive the run
loop over a fall-through program. -/

/-- LOAD result: the register byte and 16-bit little-endian immediate are
consumed and the register file is updated. -/
theorem load_result (s : VMState) (r x2 x3 : Nat)
    (h1 : s.program[s.pc]? = some r) (hrl : r < s.registers.length)
    (h2 : s.program[s.pc + 1]? = some x2) (h3 : s.program[s.pc + 2]? = some x3) :
    memory_execute_load s = some { s with
      pc := s.pc + 1 + 2
      registers := s.registers.set r (Int.ofNat (x2 + 256 * x3)) } := by
  rw [memory_execute_load]
  simp only [bind, Option.bind, next8, next16, List.get?_eq_getElem?, h1, h2, h3]
  rw [regSet, if_pos hrl]

/-- Result of the shared integer arithmetic step (ADD, SUB, MUL). -/
theorem arith_step_result (op : Int → Int → Int) (s : VMState) (r1 r2 r3 : Nat) (v1 v2 : Int)
    (h1 : s.program[s.pc]? = some r1) (h2 : s.program[s.pc + 1]? = some r2)
    (h3 : s.program[s.pc + 2]? = some r3)
    (hv1 : s.registers[r1]? = some v1) (hv2 : s.registers[r2]? = some v2)
    (hrl : r3 < s.registers.length) :
    arithmetic_step op s = some { s with
      pc := s.pc + 1 + 1 + 1
      registers := s.registers.set r3 (op v1 v2) } := by
  rw [arithmetic_step]
  simp only [bind, Option.bind, next8, regGet, List.get?_eq_getElem?, h1, h2, h3, hv1, hv2]
  rw [regSet, if_pos hrl]

/-- Result of the shared integer comparison step. -/
theorem cmp_step_result (test : Int → Int → Bool) (s : VMState) (r1 r2 x3 : Nat) (v1 v2 : Int)
    (h1 : s.program[s.pc]? = some r1) (h2 : s.program[s.pc + 1]? = some r2)
    (h3 : s.program[s.pc + 2]? = some x3)
    (hv1 : s.registers[r1]? = some v1) (hv2 : s.registers[r2]? = some v2) :
    comparison_step test s = some { s with
      pc := s.pc + 1 + 1 + 1
      equalFlag := test v1 v2 } := by
  rw [comparison_step]
  simp only [bind, Option.bind, next8, regGet, List.get?_eq_getElem?, h1, h2, h3, hv1, hv2]

/-- INC result: wrapping increment plus the 16-bit padding read. -/
theorem inc_result (s : VMState) (r x2 x3 : Nat) (v : Int)
    (h1 : s.program[s.pc]? = some r) (hv : s.registers[r]? = some v)
    (hrl : r < s.registers.length)
    (h2 : s.program[s.pc + 1]? = some x2) (h3 : s.program[s.pc + 2]? = some x3) :
    arithmetic_execute_increment s = some { s with
      pc := s.pc + 1 + 2
      registers := s.registers.set r (wrap32 (v + 1)) } := by
  rw [arithmetic_execute_increment]
  simp only [bind, Option.bind, next8, regGet, List.get?_eq_getElem?, h1, hv]
  rw [regSet, if_pos hrl]
  simp only [Option.bind, next16, List.get?_eq_getElem?, h2, h3]

/-- DEC result: wrapping decrement plus the 16-bit padding read. -/
theorem dec_result (s : VMState) (r x2 x3 : Nat) (v : Int)
    (h1 : s.program[s.pc]? = some r) (hv : s.registers[r]? = some v)
    (hrl : r < s.registers.length)
    (h2 : s.program[s.pc + 1]? = some x2) (h3 : s.program[s.pc + 2]? = some x3) :
    arithmetic_execute_decrement s = some { s with
      pc := s.pc + 1 + 2
      registers := s.registers.set r (wrap32 (v - 1)) } := by
  rw [arithmetic_execute_decrement]
  simp only [bind, Option.bind, next8, regGet, List.get?_eq_getElem?, h1, hv]
  rw [regSet, if_pos hrl]
  simp only [Option.bind, next16, List.get?_eq_getElem?, h2, h3]

/-- Result of the three padding reads shared by NOP and BKPT. -/
theorem read3pad_result (s : VMState) (x1 x2 x3 : Nat)
    (h1 : s.program[s.pc]? = some x1) (h2 : s.program[s.pc + 1]? = some x2)
    (h3 : s.program[s.pc + 2]? = some x3) :
    read3pad s = some { s with pc := s.pc + 1 + 1 + 1 } := by
  rw [read3pad]
  simp only [bind, Option.bind, next8, List.get?_eq_getElem?, h1, h2, h3]

/-- PUSH result: the register value goes onto the stack and sp counts up. -/
theorem push_result (s : VMState) (r : Nat) (v : Int)
    (h1 : s.program[s.pc]? = some r) (hv : s.registers[r]? = some v) :
    memory_execute_push_to_stack s = some { s with
      pc := s.pc + 1
      stack := v :: s.stack
      sp := s.sp + 1 } := by
  rw [memory_execute_push_to_stack]
  simp only [bind, Option.bind, next8, regGet, List.get?_eq_getElem?, h1, hv]

/-- SETM result: the 4 little-endian bytes of the data register are
appended to the heap; the offset register is read but ignored. -/
theorem setm_result (s : VMState) (r1 r2 : Nat) (w v : Int)
    (h1 : s.program[s.pc]? = some r1) (h2 : s.program[s.pc + 1]? = some r2)
    (hw : s.registers[r1]? = some w) (hv : s.registers[r2]? = some v) :
    memory_execute_set_memory s = some { s with
      pc := s.pc + 1 + 1
      heap := s.heap ++ i32LEBytes v } := by
  rw [memory_execute_set_memory]
  simp only [bind, Option.bind, next8, regGet, List.get?_eq_getElem?, h1, h2, hw, hv]

/-- The byte lengths an operand token contributes match the bytes
extract_operand emits. -/
theorem extract_operand_length (t : Token) (syms : SymbolTable) :
    (extract_operand t syms).length = operandEmitSize syms (some t) := by
  cases t <;> simp [extract_operand, operandEmitSize, i16LEBytes, u32Bytes]
  case LabelUsage name => cases syms.symbol_value name <;> simp

/-- A state at a fall-through position runs to the Done 0 termination of
an HLT within the fall-through fuel. -/
theorem runLoop_fallsThrough : ∀ (n : Nat) (s : VMState),
    s.watchVariables = [] → s.registers.length = 32 →
    fallsThroughF n s.program s.pc = true →
    ∃ t, vmRunLoop n s = some (0, t) := by
  intro n
  induction n with
  | zero => intro s hw hreg hft; cases hft
  | succ n ih =>
      intro s hw hreg hft
      unfold fallsThroughF at hft
      split at hft
      · cases hft
      · rename_i b hb
        rw [List.get?_eq_getElem?] at hb
        by_cases h5 : b = 5
        · subst h5
          exact ⟨{ s with pc := s.pc + 1 }, vmRunLoop_done n s _ 0 (exec_hlt s hw hb)⟩
        · rw [if_neg h5] at hft
          by_cases h0 : b = 0
          · subst h0
            rw [if_pos rfl] at hft
            simp only [Bool.and_eq_true] at hft
            obtain ⟨⟨⟨hA, hB⟩, hC⟩, hrec⟩ := hft
            obtain ⟨r, h1, hrlt⟩ := regByteOk_spec _ _ hA
            obtain ⟨x2, h2⟩ := byteExists_spec _ _ hB
            obtain ⟨x3, h3⟩ := byteExists_spec _ _ hC
            have hload := load_result { s with pc := s.pc + 1 } r x2 x3 h1
              (show r < s.registers.length by omega) h2 h3
            have hexec := exec_continue s 0 _ hw hb (contin_some hload)
            rw [vmRunLoop_continue n s _ hexec]
            exact ih _ hw (by simp [hreg]) hrec
          · rw [if_neg h0] at hft
            by_cases h123 : b = 1 ∨ b = 2 ∨ b = 3
            · rw [if_pos h123] at hft
              simp only [Bool.and_eq_true] at hft
              obtain ⟨⟨⟨hA, hB⟩, hC⟩, hrec⟩ := hft
              obtain ⟨r1, h1, hr1⟩ := regByteOk_spec _ _ hA
              obtain ⟨r2, h2, hr2⟩ := regByteOk_spec _ _ hB
              obtain ⟨r3, h3, hr3⟩ := regByteOk_spec _ _ hC
              obtain ⟨v1, hv1⟩ := reg_read s.registers r1 (by omega)
              obtain ⟨v2, hv2⟩ := reg_read s.registers r2 (by omega)
              rcases h123 with h | h | h <;> subst h
              · have hh := arith_step_result (fun a b => wrap32 (a + b))
                  { s with pc := s.pc + 1 } r1 r2 r3 v1 v2 h1 h2 h3 hv1 hv2
                  (show r3 < s.registers.length by omega)
                have hexec := exec_continue s 1 _ hw hb (contin_some hh)
                rw [vmRunLoop_continue n s _ hexec]
                exact ih _ hw (by simp [hreg]) hrec
              · have hh := arith_step_result (fun a b => wrap32 (a - b))
                  { s with pc := s.pc + 1 } r1 r2 r3 v1 v2 h1 h2 h3 hv1 hv2
                  (show r3 < s.registers.length by omega)
                have hexec := exec_continue s 2 _ hw hb (contin_some hh)
                rw [vmRunLoop_continue n s _ hexec]
                exact ih _ hw (by simp [hreg]) hrec
              · have hh := arith_step_result (fun a b => wrap32 (a * b))
                  { s with pc := s.pc + 1 } r1 r2 r3 v1 v2 h1 h2 h3 hv1 hv2
                  (show r3 < s.registers.length by omega)
                have hexec := exec_continue s 3 _ hw hb (contin_some hh)
                rw [vmRunLoop_continue n s _ hexec]
                exact ih _ hw (by simp [hreg]) hrec
            · rw [if_neg h123] at hft
              by_cases h914 : 9 ≤ b ∧ b ≤ 14
              · rw [if_pos h914] at hft
                simp only [Bool.and_eq_true] at hft
                obtain ⟨⟨⟨hA, hB⟩, hC⟩, hrec⟩ := hft
                obtain ⟨r1, h1, hr1⟩ := regByteOk_spec _ _ hA
                obtain ⟨r2, h2, hr2⟩ := regByteOk_spec _ _ hB
                obtain ⟨x3, h3⟩ := byteExists_spec _ _ hC
                obtain ⟨v1, hv1⟩ := reg_read s.registers r1 (by omega)
                obtain ⟨v2, hv2⟩ := reg_read s.registers r2 (by omega)
                obtain ⟨hb9, hb14⟩ := h914
                interval_cases b
                · have hh := cmp_step_result (fun a b => a == b)
                    { s with pc := s.pc + 1 } r1 r2 x3 v1 v2 h1 h2 h3 hv1 hv2
                  have hexec := exec_continue s 9 _ hw hb (contin_some hh)
                  rw [vmRunLoop_continue n s _ hexec]
                  exact ih _ hw hreg hrec
                · have hh := cmp_step_result (fun a b => a != b)
                    { s with pc := s.pc + 1 } r1 r2 x3 v1 v2 h1 h2 h3 hv1 hv2
                  have hexec := exec_continue s 10 _ hw hb (contin_some hh)
                  rw [vmRunLoop_continue n s _ hexec]
                  exact ih _ hw hreg hrec
                · have hh := cmp_step_result (fun a b => decide (a > b))
                    { s with pc := s.pc + 1 } r1 r2 x3 v1 v2 h1 h2 h3 hv1 hv2
                  have hexec := exec_continue s 11 _ hw hb (contin_some hh)
                  rw [vmRunLoop_continue n s _ hexec]
                  exact ih _ hw hreg hrec
                · have hh := cmp_step_result (fun a b => decide (a < b))
                    { s with pc := s.pc + 1 } r1 r2 x3 v1 v2 h1 h2 h3 hv1 hv2
                  have hexec := exec_continue s 12 _ hw hb (contin_some hh)
                  rw [vmRunLoop_continue n s _ hexec]
                  exact ih _ hw hreg hrec
                · have hh := cmp_step_result (fun a b => decide (a ≥ b))
                    { s with pc := s.pc + 1 } r1 r2 x3 v1 v2 h1 h2 h3 hv1 hv2
                  have hexec := exec_continue s 13 _ hw hb (contin_some hh)
                  rw [vmRunLoop_continue n s _ hexec]
                  exact ih _ hw hreg hrec
                · have hh := cmp_step_result (fun a b => decide (a ≤ b))
                    { s with pc := s.pc + 1 } r1 r2 x3 v1 v2 h1 h2 h3 hv1 hv2
                  have hexec := exec_continue s 14 _ hw hb (contin_some hh)
                  rw [vmRunLoop_continue n s _ hexec]
                  exact ih _ hw hreg hrec
              · rw [if_neg h914] at hft
                by_cases h1819 : b = 18 ∨ b = 19
                · rw [if_pos h1819] at hft
                  simp only [Bool.and_eq_true] at hft
                  obtain ⟨⟨⟨hA, hB⟩, hC⟩, hrec⟩ := hft
                  obtain ⟨r, h1, hrlt⟩ := regByteOk_spec _ _ hA
                  obtain ⟨x2, h2⟩ := byteExists_spec _ _ hB
                  obtain ⟨x3, h3⟩ := byteExists_spec _ _ hC
                  obtain ⟨v, hv⟩ := reg_read s.registers r (by omega)
                  rcases h1819 with h | h <;> subst h
                  · have hh := inc_result { s with pc := s.pc + 1 } r x2 x3 v h1 hv
                      (show r < s.registers.length by omega) h2 h3
                    have hexec := exec_continue s 18 _ hw hb (contin_some hh)
                    rw [vmRunLoop_continue n s _ hexec]
                    exact ih _ hw (by simp [hreg]) hrec
                  · have hh := dec_result { s with pc := s.pc + 1 } r x2 x3 v h1 hv
                      (show r < s.registers.length by omega) h2 h3
                    have hexec := exec_continue s 19 _ hw hb (contin_some hh)
                    rw [vmRunLoop_continue n s _ hexec]
                    exact ih _ hw (by simp [hreg]) hrec
                · rw [if_neg h1819] at hft
                  by_cases h20 : b = 20
                  · subst h20
                    rw [if_pos rfl] at hft
                    simp only [Bool.and_eq_true] at hft
                    obtain ⟨⟨⟨hA, hB⟩, hC⟩, hrec⟩ := hft
                    obtain ⟨x1, h1⟩ := byteExists_spec _ _ hA
                    obtain ⟨x2, h2⟩ := byteExists_spec _ _ hB
                    obtain ⟨x3, h3⟩ := byteExists_spec _ _ hC
                    have hh := read3pad_result { s with pc := s.pc + 1 } x1 x2 x3 h1 h2 h3
                    have hexec := exec_continue s 20 _ hw hb (contin_some hh)
                    rw [vmRunLoop_continue n s _ hexec]
                    exact ih _ hw hreg hrec
                  · rw [if_neg h20] at hft
                    by_cases h43 : b = 43
                    · subst h43
                      rw [if_pos rfl] at hft
                      simp only [Bool.and_eq_true] at hft
                      obtain ⟨⟨hA, hB⟩, hrec⟩ := hft
                      obtain ⟨r1, h1, hr1⟩ := regByteOk_spec _ _ hA
                      obtain ⟨r2, h2, hr2⟩ := regByteOk_spec _ _ hB
                      obtain ⟨w, hvw⟩ := reg_read s.registers r1 (by omega)
                      obtain ⟨v, hvv⟩ := reg_read s.registers r2 (by omega)
                      have hh := setm_result { s with pc := s.pc + 1 } r1 r2 w v h1 h2 hvw hvv
                      have hexec := exec_continue s 43 _ hw hb (contin_some hh)
                      rw [vmRunLoop_continue n s _ hexec]
                      exact ih _ hw hreg hrec
                    · rw [if_neg h43] at hft
                      by_cases h44 : b = 44
                      · subst h44
                        rw [if_pos rfl] at hft
                        simp only [Bool.and_eq_true] at hft
                        obtain ⟨hA, hrec⟩ := hft
                        obtain ⟨r, h1, hrlt⟩ := regByteOk_spec _ _ hA
                        obtain ⟨v, hv⟩ := reg_read s.registers r (by omega)
                        have hh := push_result { s with pc := s.pc + 1 } r v h1 hv
                        have hexec := exec_continue s 44 _ hw hb (contin_some hh)
                        rw [vmRunLoop_continue n s _ hexec]
                        exact ih _ hw hreg hrec
                      · rw [if_neg h44] at hft
                        cases hft


/-! Claim theorems. -/

set_option maxHeartbeats 4000000 in
/-- C1 counterexample: running the VM on a container whose first code byte
is LOADM with an empty heap does not yield any Crash(10) event; the
interpreter panics (the run aborts, modelled by none), because
ExecutionStatus has no Crash variant and the heap slice indexes past the
end. -/
theorem c1_counterexample :
    vmRun 5 [] (vmLoad exProgLoadm) = none ∧
    vmRun 5 [] (vmLoad exProgLoadm) ≠
      some [VMEventType.Start, VMEventType.Crash 10] := by
  have hn : vmRun 5 [] (vmLoad exProgLoadm) = none := by decide
  exact ⟨hn, by simp [hn]⟩

/-- C1 amended: a LOADM whose offset register points past the heap (offset
plus 4 exceeding the heap length) makes execute_instruction panic - the
step returns none, no status and no event are produced, and no heap byte
is read or written.  SETM never performs this bounds check at all; its
append-only behaviour is the subject of C2. -/
theorem c1_amended (s : VMState) (r : Nat) (v : Int)
    (hw : s.watchVariables = [])
    (h0 : s.program[s.pc]? = some 42)
    (h1 : s.program[s.pc + 1]? = some r)
    (hv : s.registers[r]? = some v)
    (hoob : s.heap.length < toUsize v + 4) :
    executeInstruction s = none := by
  have hpc : s.pc < s.program.length := (List.getElem?_eq_some.mp h0).1
  have hoob2 : ¬ (toUsize v + 4 ≤ s.heap.length) := by omega
  unfold executeInstruction
  rw [if_neg (by omega)]
  rw [watchPass_nil s hw]
  simp only [bind, Option.bind]
  rw [next8]
  simp only [List.get?_eq_getElem?, h0]
  have hop : opcodeFromByte 42 = Opcode.LOADM := rfl
  rw [hop]
  simp only [execOp]
  rw [memory_execute_load_memory]
  simp only [bind, Option.bind, next8, List.get?_eq_getElem?]
  simp only [h1]
  simp only [regGet, List.get?_eq_getElem?, hv]
  simp [hoob2, contin]

/-- C1 witness: the amended theorem applied to a concrete state whose
2-byte heap cannot satisfy a 4-byte read at offset 0. -/
theorem c1_amended_witness :
    executeInstruction exStLoadm = none :=
  c1_amended exStLoadm 0 0 rfl rfl rfl (by decide) (by decide)

/-- C2 counterexample: the SETM handler on a 4-byte heap with offset
register 0 and data register value 5 appends to the heap instead of
writing at offset 0, so the heap length changes from 4 to 8. -/
theorem c2_counterexample :
    ((memory_execute_set_memory exStSetm).map (fun t => t.heap)
      = some [9, 9, 9, 9, 5, 0, 0, 0]) ∧ (8 : Nat) ≠ 4 := by
  constructor
  · rfl
  · decide

/-- C2 amended: every execution of the SETM handler reads and discards the
offset register, then appends the 4 little-endian bytes of the data
register to the end of the heap: the heap grows by exactly 4 bytes, every
pre-existing heap byte is unchanged, the write never lands at the offset,
and registers and stack are untouched. -/
theorem c2_amended (s : VMState) (r1 r2 : Nat) (w v : Int)
    (h0 : s.program[s.pc]? = some r1)
    (h1 : s.program[s.pc + 1]? = some r2)
    (hw : s.registers[r1]? = some w)
    (hv : s.registers[r2]? = some v) :
    ∃ s', memory_execute_set_memory s = some s' ∧
      s'.heap = s.heap ++ i32LEBytes v ∧
      s'.heap.length = s.heap.length + 4 ∧
      (∀ i, i < s.heap.length → s'.heap[i]? = s.heap[i]?) ∧
      s'.pc = s.pc + 2 ∧ s'.registers = s.registers ∧ s'.stack = s.stack := by
  refine ⟨{ s with pc := s.pc + 2, heap := s.heap ++ i32LEBytes v }, ?_, ?_, ?_, ?_, ?_, ?_, ?_⟩ <;>
    simp [memory_execute_set_memory, next8, regGet, h0, h1, hw, hv, i32LEBytes_length]
  intro i hi
  exact List.getElem?_append_left hi

/-- C2 witness: the amended theorem at the concrete SETM state. -/
theorem c2_amended_witness :
    ∃ s', memory_execute_set_memory exStSetm = some s' ∧
      s'.heap = exStSetm.heap ++ i32LEBytes 5 ∧
      s'.heap.length = exStSetm.heap.length + 4 ∧
      (∀ i, i < exStSetm.heap.length → s'.heap[i]? = exStSetm.heap[i]?) ∧
      s'.pc = exStSetm.pc + 2 ∧ s'.registers = exStSetm.registers ∧
      s'.stack = exStSetm.stack :=
  c2_amended exStSetm 0 1 0 5 (by rfl) (by rfl) (by rfl) (by rfl)

/-- C3 counterexample: a bare HLT instruction encodes to 4 bytes, not to
the 1 byte that the no-padding rule with catalog operand sizes predicts. -/
theorem c3_counterexample :
    (to_bytes exInstHlt exSymsEmpty).length = 4 ∧ (4 : Nat) ≠ 1 :=
  ⟨rfl, by decide⟩

/-- C3 amended: the encoded length of every pass-2 instruction is the
maximum of 4 and the sum of 1 byte per opcode token, 1 byte per register
operand, 2 bytes per integer immediate (truncated to i16 little-endian),
2 bytes per resolved label reference (the low half of the u32 offset) and
0 bytes for anything else: immediates and addresses are not 4 bytes wide,
and short instructions are zero-padded up to 4 bytes. -/
theorem c3_amended (i : AsmInstruction) (syms : SymbolTable) :
    (to_bytes i syms).length =
      max 4 (opcodeEmitSize i.opcode + operandEmitSize syms i.operand_1 +
        operandEmitSize syms i.operand_2 + operandEmitSize syms i.operand_3) := by
  have e1 : (match i.operand_1 with
      | some t => extract_operand t syms | none => []).length = operandEmitSize syms i.operand_1 := by
    cases i.operand_1 with
    | none => simp [operandEmitSize]
    | some t => simpa using extract_operand_length t syms
  have e2 : (match i.operand_2 with
      | some t => extract_operand t syms | none => []).length = operandEmitSize syms i.operand_2 := by
    cases i.operand_2 with
    | none => simp [operandEmitSize]
    | some t => simpa using extract_operand_length t syms
  have e3 : (match i.operand_3 with
      | some t => extract_operand t syms | none => []).length = operandEmitSize syms i.operand_3 := by
    cases i.operand_3 with
    | none => simp [operandEmitSize]
    | some t => simpa using extract_operand_length t syms
  have e0 : (match i.opcode with
      | some (Token.Op c) => [opcodeToByte c] | some _ => [] | none => []).length
      = opcodeEmitSize i.opcode := by
    rcases hop : i.opcode with _ | t
    · simp [opcodeEmitSize]
    · cases t <;> simp [opcodeEmitSize]
  simp only [to_bytes, List.length_append, List.length_replicate, e0, e1, e2, e3]
  omega

/-- C4 counterexample: executing JMPE with the equal flag set and register
0 holding 7 leaves pc at 9, not 7 - the 2-byte address slot is consumed
after the jump, so the next fetch is 2 bytes past the target (this mirrors
the repository's own test, which asserts pc equals 9). -/
theorem c4_counterexample :
    ((executeInstruction exStJmpe).map (fun p => (p.1.pc, p.2)) =
      some (9, ExecutionStatus.Continue)) ∧ (9 : Nat) ≠ 7 := by
  constructor
  · rfl
  · decide

/-- C4 amended: the JMPE handler reads the register operand, and when the
equal flag is set it assigns pc the register value and then still consumes
a 16-bit read, leaving the next fetch at exactly the target plus 2; when
the flag is clear, pc advances 3 bytes past the operand byte. -/
theorem c4_amended (s t : VMState) (r : Nat) (v w : Int) (a b r2 c1 c2 : Nat)
    (hs : s.equalFlag = true)
    (h0 : s.program[s.pc]? = some r)
    (hv : s.registers[r]? = some v)
    (ha : s.program[toUsize v]? = some a)
    (hb : s.program[toUsize v + 1]? = some b)
    (ht : t.equalFlag = false)
    (k0 : t.program[t.pc]? = some r2)
    (kv : t.registers[r2]? = some w)
    (k1 : t.program[t.pc + 1]? = some c1)
    (k2 : t.program[t.pc + 2]? = some c2) :
    (∃ s', control_execute_jump_if_equal s = some s' ∧ s'.pc = toUsize v + 2) ∧
    (∃ t', control_execute_jump_if_equal t = some t' ∧ t'.pc = t.pc + 3) := by
  constructor
  · refine ⟨{ s with pc := toUsize v + 2 }, ?_, rfl⟩
    simp [control_execute_jump_if_equal, next8, next16, regGet, h0, hv, hs, ha, hb]
  · refine ⟨{ t with pc := t.pc + 3 }, ?_, rfl⟩
    simp [control_execute_jump_if_equal, next8, next16, regGet, k0, kv, ht, k1, k2]

/-- C4 witness: the amended theorem at concrete taken and not-taken
states. -/
theorem c4_amended_witness :
    ((∃ s', control_execute_jump_if_equal exStJmpeH = some s' ∧ s'.pc = toUsize 7 + 2) ∧
    (∃ t', control_execute_jump_if_equal exStJmpeClear = some t' ∧
      t'.pc = exStJmpeClear.pc + 3)) :=
  c4_amended exStJmpeH exStJmpeClear 0 7 0 0 16 0 0 0 rfl rfl (by decide) (by decide)
    (by decide) rfl rfl (by decide) rfl rfl

/-- C5 counterexample: CALL from an empty stack with sp 0 pushes two
values while leaving sp at 0, so sp no longer equals the stack length. -/
theorem c5_counterexample :
    ((system_execute_call exStCall).map (fun t => (t.sp, t.stack.length)) = some (0, 2)) ∧
    (0 : Nat) ≠ 2 :=
  ⟨rfl, by decide⟩

/-- C5 amended: PUSH and POP preserve the invariant that sp equals the
stack length, but CALL violates it: it pushes the return address and the
saved bp without touching sp, leaving the stack two entries longer than sp
says (and setting bp to the stale sp). -/
theorem c5_amended (sa sb sc : VMState) (ra rb : Nat) (va v : Int)
    (rest : List Int) (c0 c1 : Nat)
    (pa0 : sa.program[sa.pc]? = some ra)
    (pav : sa.registers[ra]? = some va)
    (hsa : sa.sp = sa.stack.length)
    (pb0 : sb.program[sb.pc]? = some rb)
    (hbr : rb < sb.registers.length)
    (hstk : sb.stack = v :: rest)
    (hsb : sb.sp = sb.stack.length)
    (hblen : sb.stack.length < 2 ^ 64)
    (pc0 : sc.program[sc.pc]? = some c0)
    (pc1 : sc.program[sc.pc + 1]? = some c1) :
    (∃ sa', memory_execute_push_to_stack sa = some sa' ∧ sa'.sp = sa'.stack.length) ∧
    (∃ sb', memory_execute_pop_from_stack sb = some sb' ∧ sb'.sp = sb'.stack.length) ∧
    (∃ sc', system_execute_call sc = some sc' ∧
      sc'.stack.length = sc.stack.length + 2 ∧ sc'.sp = sc.sp ∧ sc'.bp = sc.sp) := by
  refine ⟨⟨{ sa with pc := sa.pc + 1, stack := va :: sa.stack, sp := sa.sp + 1 }, ?_, ?_⟩, ⟨{ sb with pc := sb.pc + 1, stack := rest, sp := usizeSub sb.sp 1, registers := sb.registers.set rb v }, ?_, ?_⟩, ⟨{ sc with pc := c0 + 256 * c1, stack := ofU32 (sc.bp % 2 ^ 32) :: ofU32 ((sc.pc + 3) % 2 ^ 32) :: sc.stack, bp := sc.sp }, ?_, ?_, ?_, ?_⟩⟩
  · simp [memory_execute_push_to_stack, next8, regGet, pa0, pav]
  · simp [hsa]
  · simp [memory_execute_pop_from_stack, next8, regGet, regSet, pb0, hstk, hbr]
  · simp only [hsb, hstk, List.length_cons]
    refine usizeSub_succ_one rest.length ?_
    rw [hstk] at hblen
    simp at hblen
    omega
  · simp [system_execute_call, next16, pc0, pc1]
  · simp
  · simp
  · simp

/-- C5 witness: the amended theorem at concrete PUSH, POP and CALL
states. -/
theorem c5_amended_witness :
    (∃ sa', memory_execute_push_to_stack exStPush = some sa' ∧
      sa'.sp = sa'.stack.length) ∧
    (∃ sb', memory_execute_pop_from_stack exStPop = some sb' ∧
      sb'.sp = sb'.stack.length) ∧
    (∃ sc', system_execute_call exStCall = some sc' ∧
      sc'.stack.length = exStCall.stack.length + 2 ∧ sc'.sp = exStCall.sp ∧
      sc'.bp = exStCall.sp) :=
  c5_amended exStPush exStPop exStCall 3 2 0 7 [] 10 0 rfl (by decide) rfl rfl
    (by decide) rfl rfl (by decide) rfl rfl

/-- C6 counterexample: a labeled .float directive with an operand makes
pass 1 record an UnknownDirectiveFound error for float and leaves the
read-only blob empty - no 4 IEEE-754 bytes are appended. -/
theorem c6_counterexample :
    (process_directive asmNew exInstFloat).errors = [AsmError.UnknownDirectiveFound "float"] ∧
    (process_directive asmNew exInstFloat).ro = [] := by
  constructor <;> rfl

/-- C6 amended: for every pass-1 directive named float that carries
operands, process_directive records an UnknownDirectiveFound error for
float and changes neither the read-only blob nor the symbol table; the
float directive is not implemented. -/
theorem c6_amended (st : AsmState) (inst : AsmInstruction)
    (hd : inst.get_directive_name = some "float")
    (ho : inst.has_operands = true) :
    (process_directive st inst).errors = st.errors ++ [AsmError.UnknownDirectiveFound "float"] ∧
    (process_directive st inst).ro = st.ro ∧
    (process_directive st inst).symbols = st.symbols := by
  refine ⟨?_, ?_, ?_⟩ <;> simp [process_directive, hd, ho]

/-- C6 witness: the amended theorem at the concrete labeled float
directive. -/
theorem c6_amended_witness :
    (process_directive asmNew exInstFloat).errors =
      asmNew.errors ++ [AsmError.UnknownDirectiveFound "float"] ∧
    (process_directive asmNew exInstFloat).ro = asmNew.ro ∧
    (process_directive asmNew exInstFloat).symbols = asmNew.symbols :=
  c6_amended asmNew exInstFloat rfl rfl

/-- C7 counterexample: the smallest cleanly assembling program yields a
73-byte container, and disassembling that container panics (its length is
not a multiple of 4, so an operand read indexes past the buffer); no text
with the program's opcode sequence is ever produced. -/
theorem c7_counterexample :
    assembleProgram exProgMin = Except.ok exContainerMin ∧
    disassemble exContainerMin = none := by
  constructor
  · rfl
  · rfl

/-- C7 amended: for every program that assembles cleanly, disassembling
the assembled container either panics or returns the empty string - the
disassembler is a stub whose loop builds no output, so the round trip
never reproduces the opcode sequence of a program that has any opcode. -/
theorem c7_amended (prog : List AsmInstruction) (bytes : List Nat)
    (h : assembleProgram prog = Except.ok bytes) :
    disassemble bytes = none ∨ disassemble bytes = some "" := by
  unfold disassemble
  cases disassembleLoop bytes 0 (bytes.length + 1) with
  | none => exact Or.inl rfl
  | some u => exact Or.inr rfl

/-- C7 witness: the amended theorem at the smallest program and its
container. -/
theorem c7_amended_witness :
    disassemble exContainerMin = none ∨ disassemble exContainerMin = some "" :=
  c7_amended exProgMin exContainerMin (by rfl)

/-- C8: for every loaded container with a valid header whose linear
fall-through from the code start reaches an HLT opcode, run terminates
(some fuel suffices) and the returned event log is Start followed by a
graceful stop with code 0, which is its last event. -/
theorem c8_run_terminates (n : Nat) (s : VMState)
    (hw : s.watchVariables = []) (hreg : s.registers.length = 32)
    (hmagic : s.program.take 4 = lumiMagic)
    (hlen : lumiHeaderLength + 1 + 4 ≤ s.program.length)
    (hro : codeStart s.program ≤ s.program.length)
    (hft : fallsThroughF n s.program (codeStart s.program) = true) :
    ∃ fuel evs, vmRun fuel [] s = some evs ∧
      evs = [VMEventType.Start, VMEventType.GracefulStop 0] ∧
      evs.getLast? = some (VMEventType.GracefulStop 0) := by
  obtain ⟨t, ht⟩ := runLoop_fallsThrough n { s with pc := codeStart s.program, roData := ((s.program.drop (lumiHeaderLength + 1 + 4)).take (roLength s.program)) } hw hreg hft
  refine ⟨n, _, ?_, rfl, rfl⟩
  unfold vmRun
  rw [if_neg (by omega), if_neg (by simp [hmagic]), if_neg (by omega), if_neg (by omega)]
  simp only []
  rw [ht]
  rfl

/-- C8 witness: the header-plus-HLT container falls through immediately
and its run stops gracefully with code 0. -/
theorem c8_witness :
    fallsThroughF 1 exProgHlt (codeStart exProgHlt) = true ∧
    ∃ fuel evs, vmRun fuel [] (vmLoad exProgHlt) = some evs ∧
      evs = [VMEventType.Start, VMEventType.GracefulStop 0] ∧
      evs.getLast? = some (VMEventType.GracefulStop 0) :=
  ⟨by decide, c8_run_terminates 1 (vmLoad exProgHlt) rfl (by decide) (by decide)
    (by decide) (by decide) (by decide)⟩

/-- C9: calling run with fewer than 4 program bytes panics inside the
header check (the slice of the first four bytes indexes out of bounds),
modelled by none, instead of returning the log with Start and Crash 1. -/
theorem c9_short_program_panics (fuel : Nat) (s : VMState) (h : s.program.length < 4) :
    vmRun fuel [] s = none ∧
    vmRun fuel [] s ≠ some [VMEventType.Start, VMEventType.Crash 1] := by
  have hn : vmRun fuel [] s = none := by simp [vmRun, h]
  exact ⟨hn, by simp [hn]⟩

/-- C9 witness: a freshly constructed VM has an empty program, and its
run panics. -/
theorem c9_witness :
    vmNew.program.length < 4 ∧ vmRun 1 [] vmNew = none :=
  ⟨by decide, (c9_short_program_panics 1 vmNew (by decide)).1⟩

/-- C10: whenever run returns an event log (no panic), either the header
check failed and the log is exactly Start then Crash 1, or the header
passed and the log is exactly Start then a graceful stop whose code is 0
(HLT) or 1 (illegal opcode or pc past the end); a Crash event never
follows a successful header check and always carries code 1. -/
theorem c10_terminal_events (fuel : Nat) (s : VMState) (evs : List VMEventType)
    (h : vmRun fuel [] s = some evs) :
    (s.program.take 4 ≠ lumiMagic ∧ evs = [VMEventType.Start, VMEventType.Crash 1]) ∨
    (s.program.take 4 = lumiMagic ∧ ∃ c, (c = 0 ∨ c = 1) ∧
      evs = [VMEventType.Start, VMEventType.GracefulStop c]) := by
  simp only [vmRun, List.nil_append] at h
  split at h
  · cases h
  · split at h
    · rename_i hne
      left
      refine ⟨hne, ?_⟩
      simpa using h.symm
    · rename_i hne
      split at h
      · cases h
      · split at h
        · cases h
        · right
          refine ⟨by simpa using hne, ?_⟩
          rcases hm : vmRunLoop fuel _ with _ | ⟨code, t⟩
          · rw [hm] at h; cases h
          · rw [hm] at h
            simp at h
            exact ⟨code, vmRunLoop_code _ _ _ _ hm, h.symm⟩

/-- C10 witness: a program with a wrong header produces exactly the Start
and Crash 1 events. -/
theorem c10_witness :
    ((vmLoad exProgBadHeader).program.take 4 ≠ lumiMagic ∧
      [VMEventType.Start, VMEventType.Crash 1] = [VMEventType.Start, VMEventType.Crash 1]) ∨
    ((vmLoad exProgBadHeader).program.take 4 = lumiMagic ∧ ∃ c, (c = 0 ∨ c = 1) ∧
      [VMEventType.Start, VMEventType.Crash 1] =
        [VMEventType.Start, VMEventType.GracefulStop c]) :=
  c10_terminal_events 1 (vmLoad exProgBadHeader) [VMEventType.Start, VMEventType.Crash 1] rfl

end LumiSpec
